import Mathlib

/-!
# Named-parameter passing (`algparam.h`)

A shallow embedding of the parameter chain (`AlgorithmParameters`), the accessor table
(`GetValueHelperClass`) and the mutator table (`AssignFromHelperClass`) of `algparam.h`,
followed by theorems about them.

Conventions of the embedding:

* a `std::type_info` is a `TypeInfo`; a C++ value of any of the types that travel through a
  `void *pValue` slot is a `Value`, which carries its dynamic type;
* a function that writes through `void *pValue` takes the content of the slot and returns the
  content afterwards; a function that may throw returns an `Outcome`; a `const` catalog whose
  `mutable` members change takes its state and returns the state afterwards. A thrown exception
  does not roll the slot or the state back;
* a class `T` is named by `typeid(T).name()`, a `String`.
-/

namespace CryptoPP

/-! ## Values, type identities, exceptions -/

/-- Identity of a C++ type, as `typeid` yields it. `pointer T` is `typeid(T *)` and `object T`
is `typeid(T)` for the class named `T`. -/
inductive TypeInfo
  | int
  | Integer
  | string
  | double
  | pointer (T : String)
  | object (T : String)
  deriving DecidableEq, Repr

/-- A C++ value together with its dynamic type: a built-in `int`, an arbitrary-precision
`Integer`, a `std::string`, a `double` (its bit pattern: values are only copied, never computed
with), a `T *` (an address) and an object of class `T` (its member data). -/
inductive Value
  | int (v : Int)
  | Integer (v : Int)
  | string (s : String)
  | double (bits : Nat)
  | pointer (T : String) (addr : Nat)
  | object (T : String) (members : List Int)
  deriving DecidableEq, Repr

/-- The value of `typeid(v)`. -/
def Value.typeid : Value → TypeInfo
  | .int _ => .int
  | .Integer _ => .Integer
  | .string _ => .string
  | .double _ => .double
  | .pointer T _ => .pointer T
  | .object T _ => .object T

/-- The exceptions of the header: `ValueTypeMismatch` (thrown by `ThrowIfTypeMismatch`),
`InvalidArgument` and `AlgorithmParametersBase::ParameterNotUsed`, the latter two with their
`what()` message. -/
inductive Exception
  | ValueTypeMismatch (name : String) (stored retrieving : TypeInfo)
  | InvalidArgument (what : String)
  | ParameterNotUsed (what : String)
  deriving DecidableEq, Repr

/-- How a call ends: it returns a value or it throws. -/
inductive Outcome (α : Type)
  | returns (a : α)
  | throws (e : Exception)
  deriving DecidableEq, Repr

/-- Result of `GetVoidValue(name, valueType, pValue)` on a catalog with state `σ`: how the call
ended, the content of `*pValue` afterwards, and the catalog afterwards. -/
structure GetResult (σ : Type) where
  ret : Outcome Bool
  pValue : Value
  self : σ
  deriving DecidableEq, Repr

/-- The virtual `NameValuePairs::GetVoidValue` of a catalog with state `σ`. -/
abbrev NameValuePairs (σ : Type) := σ → String → TypeInfo → Value → GetResult σ

/-- Modelled from the spec: `NameValuePairs::ThrowIfTypeMismatch`, which is defined in
`cryptlib.h`, not in `algparam.h`. "If matched but the requested type disagrees with the stored
type, the whole operation fails": the exception thrown, if any. -/
def ThrowIfTypeMismatch (name : String) (stored retrieving : TypeInfo) : Option Exception :=
  if stored ≠ retrieving then some (.ValueTypeMismatch name stored retrieving) else none

/-- Modelled from the spec: `NameValuePairs::GetValue<T>(name, value)`, which is defined in
`cryptlib.h`, not in `algparam.h`: the sugar atop `GetVoidValue` that requests the static type
`T` of the variable it is given. -/
def GetValue {σ : Type} (GetVoidValue : NameValuePairs σ) (self : σ) (name : String)
    (T : TypeInfo) (value : Value) : GetResult σ :=
  GetVoidValue self name T value

/-- Modelled from the spec: `NameValuePairs::GetThisObject<T>(object)`, which is defined in
`cryptlib.h`, not in `algparam.h`: "the source exposes `ThisObject:<tag>` for the target's
tag". The slot is the object itself. -/
def GetThisObject {σ : Type} (GetVoidValue : NameValuePairs σ) (self : σ) (T : String)
    (object : Value) : GetResult σ :=
  GetValue GetVoidValue self ("ThisObject:" ++ T) (.object T) object

/-- The statement `*reinterpret_cast<std::string *>(pValue) += s`. The cast is only reached
after the requested type was checked to be `std::string`; on a slot that holds no string (a
caller that lied about the type) the slot is left alone. -/
def appendString (pValue : Value) (s : String) : Value :=
  match pValue with
  | .string t => .string (t ++ s)
  | v => v

/-! ## The parameter chain -/

/-- The type of the function pointer `AssignIntToInteger(valueType, pInteger, pInt)`: whether it
accepted, and the content of `*pInteger` afterwards. -/
abbrev IntToIntegerHook := TypeInfo → Value → Int → Bool × Value

/-- Modelled from the spec: the function that `integer.cpp` installs in the pointer
`AssignIntToInteger`, which `algparam.h` only declares. "A stored built-in integer may satisfy
a request for the platform's arbitrary-precision integer type." -/
def AssignIntToIntegerImpl : IntToIntegerHook := fun valueType pInteger pInt =>
  if valueType ≠ .Integer then (false, pInteger) else (true, .Integer pInt)

/-- The method `AlgorithmParametersBase2<T>::AssignValue` for the stored `m_value`, with the
global `AssignIntToInteger` (`none` is `NULL`) as a parameter: the exception thrown, if any, and
the content of `*pValue` afterwards. -/
def AssignValue (AssignIntToInteger : Option IntToIntegerHook) (m_value : Value)
    (name : String) (valueType : TypeInfo) (pValue : Value) : Option Exception × Value :=
  let hooked : Bool × Value :=
    match AssignIntToInteger, m_value with
    | some hook, .int i => hook valueType pValue i
    | _, _ => (false, pValue)
  if !hooked.1 then
    match ThrowIfTypeMismatch name m_value.typeid valueType with
    | some e => (some e, hooked.2)
    | none => (none, m_value)
  else
    (none, hooked.2)

/-- An object that can be the `PARENT` of a node: `g_nullNameValuePairs`, or a node
`AlgorithmParameters<PARENT, T>` with its members `m_parent`, `m_name`, `m_value`,
`m_throwIfNotUsed` and `m_used`. -/
inductive AlgorithmParameters
  | g_nullNameValuePairs
  | node (m_parent : AlgorithmParameters) (m_name : String) (m_value : Value)
      (m_throwIfNotUsed : Bool) (m_used : Bool)
  deriving DecidableEq, Repr

/-- The member `m_throwIfNotUsed` of a node (`NullNameValuePairs` has no such member and no
`operator()`; it is never read there). -/
def AlgorithmParameters.m_throwIfNotUsed : AlgorithmParameters → Bool
  | .g_nullNameValuePairs => false
  | .node _ _ _ t _ => t

/-- The copy constructor `AlgorithmParameters(const AlgorithmParameters &copy)`: the new object
and the source afterwards. The base-class part and `m_parent` are copied member by member (the
latter by this constructor again), then `copy.m_used = true`. -/
def AlgorithmParameters.copy : AlgorithmParameters → AlgorithmParameters × AlgorithmParameters
  | .g_nullNameValuePairs => (.g_nullNameValuePairs, .g_nullNameValuePairs)
  | .node p n v t u => (.node (copy p).1 n v t u, .node (copy p).2 n v t true)

/-- The constructor `AlgorithmParameters(parent, name, value, throwIfNotUsed)`: the new node,
with `m_parent(parent)` copy-constructed and `m_used(false)`, and `parent` afterwards. -/
def AlgorithmParameters.ctor (parent : AlgorithmParameters) (name : String) (value : Value)
    (throwIfNotUsed : Bool) : AlgorithmParameters × AlgorithmParameters :=
  (.node parent.copy.1 name value throwIfNotUsed false, parent.copy.2)

/-- The member `operator()(name, value)`: the node returned and `*this` afterwards. -/
def AlgorithmParameters.call (self : AlgorithmParameters) (name : String) (value : Value) :
    AlgorithmParameters × AlgorithmParameters :=
  AlgorithmParameters.ctor self name value self.m_throwIfNotUsed

/-- The member `operator()(name, value, throwIfNotUsed)`: the node returned and `*this`
afterwards. -/
def AlgorithmParameters.callFlag (self : AlgorithmParameters) (name : String) (value : Value)
    (throwIfNotUsed : Bool) : AlgorithmParameters × AlgorithmParameters :=
  AlgorithmParameters.ctor self name value throwIfNotUsed

/-- The function `MakeParameters(name, value, throwIfNotUsed)`. -/
def MakeParameters (name : String) (value : Value) (throwIfNotUsed : Bool) :
    AlgorithmParameters :=
  (AlgorithmParameters.ctor .g_nullNameValuePairs name value throwIfNotUsed).1

/-- The call `MakeParameters(name, value)`, with the default argument `throwIfNotUsed = true`. -/
def MakeParametersDefault (name : String) (value : Value) : AlgorithmParameters :=
  MakeParameters name value true

/-- Modelled from the spec: `AlgorithmParametersBase::GetVoidValue`, which `algparam.h` only
declares (it is defined in `algparam.cpp`), and `NullNameValuePairs::GetVoidValue` of
`cryptlib.h`. The empty root resolves nothing. At a node, `"ValueNames"` (type text) appends the names the
parent exposes and then this node's name followed by `;`, never marking a binding used;
otherwise "if name equals this node's name, validate type (permitting the int to
arbitrary-precision-integer widening), copy the value out, set used = true, return found;
otherwise delegate to parent.resolve". `AssignValue` is the source's. -/
def AlgorithmParameters.GetVoidValue (AssignIntToInteger : Option IntToIntegerHook) :
    NameValuePairs AlgorithmParameters
  | .g_nullNameValuePairs, _, _, pValue => ⟨.returns false, pValue, .g_nullNameValuePairs⟩
  | .node p n v t u, name, valueType, pValue =>
    if name = "ValueNames" then
      match ThrowIfTypeMismatch name .string valueType with
      | some e => ⟨.throws e, pValue, .node p n v t u⟩
      | none =>
        let r := GetVoidValue AssignIntToInteger p name valueType pValue
        match r.ret with
        | .throws e => ⟨.throws e, r.pValue, .node r.self n v t u⟩
        | .returns _ => ⟨.returns true, appendString r.pValue (n ++ ";"), .node r.self n v t u⟩
    else if name = n then
      match AssignValue AssignIntToInteger v name valueType pValue with
      | (some e, pValue1) => ⟨.throws e, pValue1, .node p n v t u⟩
      | (none, pValue1) => ⟨.returns true, pValue1, .node p n v t true⟩
    else
      let r := GetVoidValue AssignIntToInteger p name valueType pValue
      ⟨r.ret, r.pValue, .node r.self n v t u⟩

/-- The destructor `~AlgorithmParametersBase()` of a node with the given members: the exception
it lets escape, if any. `CRYPTOPP_UNCAUGHT_EXCEPTION_AVAILABLE` tells whether that macro of
`config.h` is defined, and `uncaught_exception` is what `std::uncaught_exception()` returns.
Without the macro the check sits in `try ... catch(...) {}`, which swallows the exception. -/
def AlgorithmParametersBase.destructor (CRYPTOPP_UNCAUGHT_EXCEPTION_AVAILABLE : Bool)
    (uncaught_exception : Bool) (m_name : String) (m_throwIfNotUsed m_used : Bool) :
    Option Exception :=
  let body : Option Exception :=
    if m_throwIfNotUsed && !m_used then
      some (.ParameterNotUsed ("AlgorithmParametersBase: parameter \"" ++ m_name ++ "\" not used"))
    else none
  if CRYPTOPP_UNCAUGHT_EXCEPTION_AVAILABLE then
    if !uncaught_exception then body else none
  else
    match body with
    | some _ => none
    | none => none

/-- A chained call of `operator()`: the two-argument overload when `throwIfNotUsed` is `none`. -/
structure WithCall where
  name : String
  value : Value
  throwIfNotUsed : Option Bool
  deriving DecidableEq, Repr

/-- The node returned by one chained call on `self`. -/
def WithCall.apply (self : AlgorithmParameters) (w : WithCall) : AlgorithmParameters :=
  match w.throwIfNotUsed with
  | none => (self.call w.name w.value).1
  | some f => (self.callFlag w.name w.value f).1

/-- The expression `MakeParameters(name, value, throwIfNotUsed)(...)(...)...`: the outermost
node. -/
def chain (name : String) (value : Value) (throwIfNotUsed : Bool) (calls : List WithCall) :
    AlgorithmParameters :=
  calls.foldl WithCall.apply (MakeParameters name value throwIfNotUsed)

/-! ## The accessor table -/

/-- The test `strncmp(s, lit, n) == 0`: the first `n` characters agree (or both strings end
before that and agree). -/
def strncmpEq (s lit : String) (n : Nat) : Bool :=
  s.data.take n == lit.data.take n

/-- The test `strcmp(s + n, t) == 0`, reached only after `strncmpEq` found `s` to have at least
`n` characters. -/
def strcmpFromEq (s : String) (n : Nat) (t : String) : Bool :=
  s.data.drop n == t.data

/-- The object `GetValueHelperClass<T, BASE>`: its members, `*m_pObject` (`object`), the content
of `*m_pValue`, the state of the `searchFirst` catalog, and the exception that is propagating
out of the chained expression, if one was thrown. -/
structure GetValueHelperClass (σ : Type) where
  m_pObject : Nat
  object : Value
  m_name : String
  m_valueType : TypeInfo
  m_pValue : Value
  m_found : Bool
  m_getValueNames : Bool
  searchFirst : σ
  thrown : Option Exception
  deriving DecidableEq, Repr

/-- The first block of the constructor, `if (strcmp(m_name, "ValueNames") == 0) ...`. -/
def GetValueHelperClass.ctorValueNames {σ : Type} (T BASE : String)
    (BASE_GetVoidValue : NameValuePairs Value) (searchFirst : Option (NameValuePairs σ))
    (h : GetValueHelperClass σ) : GetValueHelperClass σ :=
  let h := { h with m_found := true, m_getValueNames := true }
  match ThrowIfTypeMismatch h.m_name .string h.m_valueType with
  | some e => { h with thrown := some e }
  | none =>
    let r1 : GetResult σ :=
      match searchFirst with
      | some g => g h.searchFirst h.m_name h.m_valueType h.m_pValue
      | none => ⟨.returns false, h.m_pValue, h.searchFirst⟩
    match r1.ret with
    | .throws e => { h with m_pValue := r1.pValue, searchFirst := r1.self, thrown := some e }
    | .returns _ =>
      let r2 : GetResult Value :=
        if T ≠ BASE then BASE_GetVoidValue h.object h.m_name h.m_valueType r1.pValue
        else ⟨.returns false, r1.pValue, h.object⟩
      match r2.ret with
      | .throws e =>
        { h with m_pValue := r2.pValue, searchFirst := r1.self, object := r2.self,
                 thrown := some e }
      | .returns _ =>
        { h with m_pValue := appendString r2.pValue ("ThisPointer:" ++ T ++ ";"),
                 searchFirst := r1.self, object := r2.self }

/-- The constructor `GetValueHelperClass(pObject, name, valueType, pValue, searchFirst)` for the
class named `T` with base-equivalent `BASE`. `BASE_GetVoidValue` is `BASE::GetVoidValue` on
`*pObject`; `searchFirst` is `none` for a null pointer, and `delegate` is the state of the
catalog it points to. -/
def GetValueHelperClass.ctor {σ : Type} (T BASE : String)
    (BASE_GetVoidValue : NameValuePairs Value) (searchFirst : Option (NameValuePairs σ))
    (pObject : Nat) (object : Value) (name : String) (valueType : TypeInfo) (pValue : Value)
    (delegate : σ) : GetValueHelperClass σ :=
  let h0 : GetValueHelperClass σ :=
    { m_pObject := pObject, object := object, m_name := name, m_valueType := valueType,
      m_pValue := pValue, m_found := false, m_getValueNames := false, searchFirst := delegate,
      thrown := none }
  let h1 := if name = "ValueNames" then ctorValueNames T BASE BASE_GetVoidValue searchFirst h0
            else h0
  if h1.thrown.isSome then h1
  else if !h1.m_found && strncmpEq name "ThisPointer:" 12 && strcmpFromEq name 12 T then
    match ThrowIfTypeMismatch name (.pointer T) valueType with
    | some e => { h1 with thrown := some e }
    | none => { h1 with m_pValue := .pointer T pObject, m_found := true }
  else
    let h2 : GetValueHelperClass σ :=
      match searchFirst with
      | some g =>
        if !h1.m_found then
          let r := g h1.searchFirst name valueType h1.m_pValue
          match r.ret with
          | .throws e => { h1 with m_pValue := r.pValue, searchFirst := r.self, thrown := some e }
          | .returns b => { h1 with m_pValue := r.pValue, searchFirst := r.self, m_found := b }
        else h1
      | none => h1
    if h2.thrown.isSome then h2
    else if !h2.m_found && T ≠ BASE then
      let r := BASE_GetVoidValue h2.object name valueType h2.m_pValue
      match r.ret with
      | .throws e => { h2 with m_pValue := r.pValue, object := r.self, thrown := some e }
      | .returns b => { h2 with m_pValue := r.pValue, object := r.self, m_found := b }
    else h2

/-- The member `operator()(name, pm)` for an accessor `pm` returning `const R &`. Nothing runs
once an exception is propagating. -/
def GetValueHelperClass.named {σ : Type} (h : GetValueHelperClass σ) (name : String)
    (R : TypeInfo) (pm : Value → Value) : GetValueHelperClass σ :=
  if h.thrown.isSome then h
  else
    let h1 := if h.m_getValueNames then { h with m_pValue := appendString h.m_pValue (name ++ ";") }
              else h
    if !h1.m_found && name = h1.m_name then
      match ThrowIfTypeMismatch name R h1.m_valueType with
      | some e => { h1 with thrown := some e }
      | none => { h1 with m_pValue := pm h1.object, m_found := true }
    else h1

/-- The member `Assignable()` of `GetValueHelperClass<T, BASE>`. -/
def GetValueHelperClass.Assignable {σ : Type} (T : String) (h : GetValueHelperClass σ) :
    GetValueHelperClass σ :=
  if h.thrown.isSome then h
  else
    let h1 := if h.m_getValueNames then
                { h with m_pValue := appendString h.m_pValue ("ThisObject:" ++ T ++ ";") }
              else h
    if !h1.m_found && strncmpEq h1.m_name "ThisObject:" 11 && strcmpFromEq h1.m_name 11 T then
      match ThrowIfTypeMismatch h1.m_name (.object T) h1.m_valueType with
      | some e => { h1 with thrown := some e }
      | none => { h1 with m_pValue := h1.object, m_found := true }
    else h1

/-- One link of the chained expression after `GetValueHelper<BASE>(...)`: an `operator()` call
with a name and an accessor returning `const R &`, or a call of `Assignable()`. -/
inductive GetValueEntry
  | named (name : String) (R : TypeInfo) (pm : Value → Value)
  | Assignable

/-- The helper after one more link of the chained expression. -/
def GetValueEntry.apply {σ : Type} (T : String) (h : GetValueHelperClass σ) :
    GetValueEntry → GetValueHelperClass σ
  | .named name R pm => h.named name R pm
  | .Assignable => h.Assignable T

/-- The name a link answers to: its own, and `ThisObject:<T>` for `Assignable()`. -/
def GetValueEntry.name (T : String) : GetValueEntry → String
  | .named name _ _ => name
  | .Assignable => "ThisObject:" ++ T

/-- The type a link stores: `R`, and `T` itself for `Assignable()`. -/
def GetValueEntry.type (T : String) : GetValueEntry → TypeInfo
  | .named _ R _ => R
  | .Assignable => .object T

/-- The value a link publishes for the object: what its accessor returns, and the object itself
for `Assignable()`. -/
def GetValueEntry.value (object : Value) : GetValueEntry → Value
  | .named _ _ pm => pm object
  | .Assignable => object

/-- The body `return GetValueHelper<BASE>(this, name, valueType, pValue, searchFirst)(...)...;`
of the `GetVoidValue` of a class `T` that declares `entries`: the helper after the last link. -/
def GetValueHelper {σ : Type} (T BASE : String) (BASE_GetVoidValue : NameValuePairs Value)
    (searchFirst : Option (NameValuePairs σ)) (entries : List GetValueEntry)
    (pObject : Nat) (object : Value) (name : String) (valueType : TypeInfo) (pValue : Value)
    (delegate : σ) : GetValueHelperClass σ :=
  entries.foldl (GetValueEntry.apply T)
    (GetValueHelperClass.ctor T BASE BASE_GetVoidValue searchFirst pObject object name valueType
      pValue delegate)

/-- How the `GetVoidValue` built on a helper ends: the exception propagating, or the value of
`operator bool`, which is `m_found`. -/
def GetValueHelperClass.ret {σ : Type} (h : GetValueHelperClass σ) : Outcome Bool :=
  match h.thrown with
  | some e => .throws e
  | none => .returns h.m_found

/-! ## The mutator table -/

/-- The value `R()` that `Hack_DefaultValueFromConstReferenceType` returns: zero, the empty
string, the null pointer, and for a class the object with no member data. -/
def TypeInfo.defaultValue : TypeInfo → Value
  | .int => .int 0
  | .Integer => .Integer 0
  | .string => .string ""
  | .double => .double 0
  | .pointer T => .pointer T 0
  | .object T => .object T []

/-- The function `Hack_GetValueIntoConstReference(source, name, value)`. -/
def Hack_GetValueIntoConstReference {σ : Type} (GetVoidValue : NameValuePairs σ) (source : σ)
    (name : String) (R : TypeInfo) (value : Value) : GetResult σ :=
  GetValue GetVoidValue source name R value

/-- The object `AssignFromHelperClass<T, BASE>`: `*m_pObject`, the state of `m_source`,
`m_done`, and the exception that is propagating out of the chained expression, if any. -/
structure AssignFromHelperClass (σ : Type) where
  m_pObject : Value
  m_source : σ
  m_done : Bool
  thrown : Option Exception
  deriving DecidableEq, Repr

/-- Result of `BASE::AssignFrom(source)` on an object: the exception thrown, if any, the object
and the source afterwards. -/
structure AssignResult (σ : Type) where
  thrown : Option Exception
  object : Value
  source : σ

/-- The constructor `AssignFromHelperClass(pObject, source)` for the class named `T` with
base-equivalent `BASE`; `GetVoidValue` is the source's and `BASE_AssignFrom` is
`BASE::AssignFrom` on `*pObject`. -/
def AssignFromHelperClass.ctor {σ : Type} (T BASE : String) (GetVoidValue : NameValuePairs σ)
    (BASE_AssignFrom : Value → σ → AssignResult σ) (pObject : Value) (source : σ) :
    AssignFromHelperClass σ :=
  let r := GetThisObject GetVoidValue source T pObject
  match r.ret with
  | .throws e => { m_pObject := r.pValue, m_source := r.self, m_done := false, thrown := some e }
  | .returns true => { m_pObject := r.pValue, m_source := r.self, m_done := true, thrown := none }
  | .returns false =>
    if BASE ≠ T then
      let b := BASE_AssignFrom r.pValue r.self
      { m_pObject := b.object, m_source := b.source, m_done := false, thrown := b.thrown }
    else { m_pObject := r.pValue, m_source := r.self, m_done := false, thrown := none }

/-- The message of the `InvalidArgument` thrown for a declared name the source lacks. -/
def missingRequiredParameter (T name : String) : Exception :=
  .InvalidArgument (T ++ ": Missing required parameter '" ++ name ++ "'")

/-- The member `operator()(name, pm)` for a mutator `pm` taking an `R`. Nothing runs once an
exception is propagating. -/
def AssignFromHelperClass.named {σ : Type} (T : String) (GetVoidValue : NameValuePairs σ)
    (h : AssignFromHelperClass σ) (name : String) (R : TypeInfo) (pm : Value → Value → Value) :
    AssignFromHelperClass σ :=
  if h.thrown.isSome then h
  else if !h.m_done then
    let r := Hack_GetValueIntoConstReference GetVoidValue h.m_source name R R.defaultValue
    match r.ret with
    | .throws e => { h with m_source := r.self, thrown := some e }
    | .returns false => { h with m_source := r.self, thrown := some (missingRequiredParameter T name) }
    | .returns true => { h with m_source := r.self, m_pObject := pm h.m_pObject r.pValue }
  else h

/-- The member `operator()(name1, name2, pm)` for a mutator `pm` taking an `R` and an `S`. -/
def AssignFromHelperClass.named2 {σ : Type} (T : String) (GetVoidValue : NameValuePairs σ)
    (h : AssignFromHelperClass σ) (name1 name2 : String) (R S : TypeInfo)
    (pm : Value → Value → Value → Value) : AssignFromHelperClass σ :=
  if h.thrown.isSome then h
  else if !h.m_done then
    let r1 := Hack_GetValueIntoConstReference GetVoidValue h.m_source name1 R R.defaultValue
    match r1.ret with
    | .throws e => { h with m_source := r1.self, thrown := some e }
    | .returns false =>
      { h with m_source := r1.self, thrown := some (missingRequiredParameter T name1) }
    | .returns true =>
      let r2 := Hack_GetValueIntoConstReference GetVoidValue r1.self name2 S S.defaultValue
      match r2.ret with
      | .throws e => { h with m_source := r2.self, thrown := some e }
      | .returns false =>
        { h with m_source := r2.self, thrown := some (missingRequiredParameter T name2) }
      | .returns true =>
        { h with m_source := r2.self, m_pObject := pm h.m_pObject r1.pValue r2.pValue }
  else h

/-- One link of the chained expression after `AssignFromHelper<BASE>(...)`: an `operator()` call
with one name and a mutator taking an `R`, or with two names and a mutator taking an `R` and an
`S`. A mutator maps the object and its arguments to the object afterwards. -/
inductive AssignFromEntry
  | one (name : String) (R : TypeInfo) (pm : Value → Value → Value)
  | two (name1 name2 : String) (R S : TypeInfo) (pm : Value → Value → Value → Value)

/-- The helper after one more link of the chained expression. -/
def AssignFromEntry.apply {σ : Type} (T : String) (GetVoidValue : NameValuePairs σ)
    (h : AssignFromHelperClass σ) : AssignFromEntry → AssignFromHelperClass σ
  | .one name R pm => h.named T GetVoidValue name R pm
  | .two name1 name2 R S pm => h.named2 T GetVoidValue name1 name2 R S pm

/-- The statement `AssignFromHelper<BASE>(this, source)(...)...;` of the `AssignFrom` of a
class `T` that declares `entries`: the helper after the last link. -/
def AssignFromHelper {σ : Type} (T BASE : String) (GetVoidValue : NameValuePairs σ)
    (BASE_AssignFrom : Value → σ → AssignResult σ) (entries : List AssignFromEntry)
    (pObject : Value) (source : σ) : AssignFromHelperClass σ :=
  entries.foldl (AssignFromEntry.apply T GetVoidValue)
    (AssignFromHelperClass.ctor T BASE GetVoidValue BASE_AssignFrom pObject source)

/-! ## Auxiliary notions for the statements -/

/-- The bindings of a chain, outermost node first. -/
def AlgorithmParameters.bindings : AlgorithmParameters → List (String × Value)
  | .g_nullNameValuePairs => []
  | .node p n v _ _ => (n, v) :: bindings p

/-- The chain `inner` with further nodes around it, each given by its name, value,
`m_throwIfNotUsed` and `m_used`; the head of the list is the outermost node. -/
def AlgorithmParameters.wrap (inner : AlgorithmParameters) :
    List (String × Value × Bool × Bool) → AlgorithmParameters
  | [] => inner
  | (n, v, t, u) :: rest => .node (wrap inner rest) n v t u

/-- A sample mutator `void T::SetMember(int)`: it stores its argument as member `k` of the
object. -/
def sampleSetMember (k : Nat) : Value → Value → Value
  | .object T members, .int i => .object T (members.set k i)
  | object, _ => object

/-- A sample mutator `void T::SetBoth(int, int)`: it stores its arguments as members 0 and 1. -/
def sampleSetBoth : Value → Value → Value → Value
  | .object T _, .int i, .int j => .object T [i, j]
  | object, _, _ => object

/-- A sample accessor `const int & T::GetMember() const`: member `k` of the object. -/
def sampleGetMember (k : Nat) : Value → Value
  | .object _ members => .int (members.getD k 0)
  | _ => .int 0

/-- A sample `BASE::AssignFrom` that assigns nothing. -/
def sampleBaseAssignFrom {σ : Type} : Value → σ → AssignResult σ :=
  fun object source => ⟨none, object, source⟩

/-- A sample `BASE::AssignFrom` that sets members 0 and 1 of the object to 1 and leaves the
source alone. -/
def sampleBaseAssignFromOnes {σ : Type} : Value → σ → AssignResult σ :=
  fun object source => ⟨none, sampleSetBoth object (.int 1) (.int 1), source⟩

/-- A sample `BASE::GetVoidValue` that resolves nothing. -/
def sampleBaseGetVoidValue : NameValuePairs Value :=
  fun object _ _ pValue => ⟨.returns false, pValue, object⟩

/-! ## Further parts of the header and notions for the statements -/

/-- Modelled from the spec: `CombinedNameValuePairs::GetVoidValue`, which `algparam.h` only
declares (it is defined in `algparam.cpp`). The catalog "composes two catalogs, querying the
first before the second": it "returns A's binding if present, else B's, else not-found only
when neither has it". For `"ValueNames"` both catalogs are asked in this order, each of them
reporting found. The state is the pair of the states of `m_pairs1` and `m_pairs2`. -/
def CombinedNameValuePairs.GetVoidValue {σ τ : Type} (pairs1 : NameValuePairs σ)
    (pairs2 : NameValuePairs τ) : NameValuePairs (σ × τ) :=
  fun self name valueType pValue =>
    let r1 := pairs1 self.1 name valueType pValue
    if name = "ValueNames" then
      match r1.ret with
      | .throws e => ⟨.throws e, r1.pValue, (r1.self, self.2)⟩
      | .returns false => ⟨.returns false, r1.pValue, (r1.self, self.2)⟩
      | .returns true =>
        let r2 := pairs2 self.2 name valueType r1.pValue
        ⟨r2.ret, r2.pValue, (r1.self, r2.self)⟩
    else
      match r1.ret with
      | .throws e => ⟨.throws e, r1.pValue, (r1.self, self.2)⟩
      | .returns true => ⟨.returns true, r1.pValue, (r1.self, self.2)⟩
      | .returns false =>
        let r2 := pairs2 self.2 name valueType r1.pValue
        ⟨r2.ret, r2.pValue, (r1.self, r2.self)⟩

/-- The implicit destructor `~AlgorithmParameters()` of a whole chain: the exception it lets
escape, if any. The member `m_parent` is destroyed first, then the base-class destructor
`~AlgorithmParametersBase()` runs. When the destruction of `m_parent` throws, the base-class
destructor runs as part of the unwinding, where `std::uncaught_exception()` is true, and the
exception of `m_parent` goes on (a second exception escaping there would end the program; the
base-class destructor lets none escape while unwinding). `g_nullNameValuePairs` has nothing to
check. -/
def AlgorithmParameters.destructor (CRYPTOPP_UNCAUGHT_EXCEPTION_AVAILABLE : Bool)
    (uncaught_exception : Bool) : AlgorithmParameters → Option Exception
  | .g_nullNameValuePairs => none
  | .node p n _ t u =>
    match destructor CRYPTOPP_UNCAUGHT_EXCEPTION_AVAILABLE uncaught_exception p with
    | some e =>
      match AlgorithmParametersBase.destructor CRYPTOPP_UNCAUGHT_EXCEPTION_AVAILABLE true n t u with
      | some e2 => some e2
      | none => some e
    | none =>
      AlgorithmParametersBase.destructor CRYPTOPP_UNCAUGHT_EXCEPTION_AVAILABLE
        uncaught_exception n t u

/-- The name, value, `m_throwIfNotUsed` and `m_used` of the node `d` levels below the
outermost one, if the chain is that deep. -/
def AlgorithmParameters.nodeAt : AlgorithmParameters → Nat → Option (String × Value × Bool × Bool)
  | .g_nullNameValuePairs, _ => none
  | .node _ n v t u, 0 => some (n, v, t, u)
  | .node p _ _ _ _, d + 1 => nodeAt p d

/-- The chain `d` levels below the outermost node: `m_parent` taken `d` times. -/
def AlgorithmParameters.parentAt : AlgorithmParameters → Nat → AlgorithmParameters
  | c, 0 => c
  | .g_nullNameValuePairs, _ + 1 => .g_nullNameValuePairs
  | .node p _ _ _ _, d + 1 => parentAt p d

/-- The same chain with `m_used = true` in every node. -/
def AlgorithmParameters.allUsed : AlgorithmParameters → AlgorithmParameters
  | .g_nullNameValuePairs => .g_nullNameValuePairs
  | .node p n v t _ => .node (allUsed p) n v t true

/-- A receiver that makes several `GetVoidValue` calls, one after the other, through the
outermost node, each with a name, a requested type and a slot: the chain afterwards. -/
def AlgorithmParameters.resolveAll (AssignIntToInteger : Option IntToIntegerHook)
    (c : AlgorithmParameters) (queries : List (String × TypeInfo × Value)) :
    AlgorithmParameters :=
  queries.foldl
    (fun c q => (AlgorithmParameters.GetVoidValue AssignIntToInteger c q.1 q.2.1 q.2.2).self) c

/-- The `GetVoidValue` of a class `T` whose body is
`return GetValueHelper<BASE>(this, name, valueType, pValue)(...)...;` with the links `entries`
and no `searchFirst`, as a catalog whose state is the object. -/
def classGetVoidValue (T BASE : String) (BASE_GetVoidValue : NameValuePairs Value)
    (entries : List GetValueEntry) (pObject : Nat) : NameValuePairs Value :=
  fun object name valueType pValue =>
    let h := GetValueHelper T BASE BASE_GetVoidValue (none : Option (NameValuePairs Unit))
      entries pObject object name valueType pValue ()
    ⟨h.ret, h.m_pValue, h.object⟩

/-- What the declared mutators do when every declared name is there, in the words of the
specification: link after link, in declaration order, each name is pulled from the source
(`name1` before `name2`) and the mutator is invoked with the value(s) retrieved. The result is
the target and the source afterwards, or `none` as soon as a pull does not return found. -/
def assignInOrder {σ : Type} (Get : NameValuePairs σ) :
    List AssignFromEntry → Value → σ → Option (Value × σ)
  | [], object, source => some (object, source)
  | .one name R pm :: rest, object, source =>
    let r := Get source name R R.defaultValue
    if r.ret = .returns true then assignInOrder Get rest (pm object r.pValue) r.self else none
  | .two name1 name2 R S pm :: rest, object, source =>
    let r1 := Get source name1 R R.defaultValue
    if r1.ret = .returns true then
      let r2 := Get r1.self name2 S S.defaultValue
      if r2.ret = .returns true then
        assignInOrder Get rest (pm object r1.pValue r2.pValue) r2.self
      else none
    else none

/-! ## Lemmas on the parameter chain -/

theorem AlgorithmParameters_copy_fst (c : AlgorithmParameters) : c.copy.1 = c := by
  induction c with
  | g_nullNameValuePairs => rfl
  | node p n v t u ih => simp [AlgorithmParameters.copy, ih]

theorem WithCall_apply_eq (self : AlgorithmParameters) (w : WithCall) :
    ∃ t, w.apply self = .node self w.name w.value t false := by
  unfold WithCall.apply
  cases w.throwIfNotUsed <;>
    simp [AlgorithmParameters.call, AlgorithmParameters.callFlag, AlgorithmParameters.ctor,
      AlgorithmParameters_copy_fst]

theorem bindings_foldl_apply (calls : List WithCall) (c : AlgorithmParameters) :
    (calls.foldl WithCall.apply c).bindings
      = (calls.map (fun w => (w.name, w.value))).reverse ++ c.bindings := by
  induction calls generalizing c with
  | nil => simp
  | cons w ws ih =>
    obtain ⟨t, ht⟩ := WithCall_apply_eq c w
    simp [List.foldl, ih, ht, AlgorithmParameters.bindings]

theorem bindings_chain (name : String) (value : Value) (f : Bool) (calls : List WithCall) :
    (chain name value f calls).bindings
      = ((name, value) :: calls.map (fun w => (w.name, w.value))).reverse := by
  simp [chain, bindings_foldl_apply, MakeParameters, AlgorithmParameters.ctor,
    AlgorithmParameters.copy, AlgorithmParameters.bindings]

theorem GetVoidValue_node_self_eq (hook : Option IntToIntegerHook) (p : AlgorithmParameters)
    (n : String) (v : Value) (t u : Bool) (valueType : TypeInfo) (pValue : Value)
    (hn : n ≠ "ValueNames") :
    AlgorithmParameters.GetVoidValue hook (.node p n v t u) n valueType pValue
      = (match AssignValue hook v n valueType pValue with
          | (some e, pValue1) => ⟨.throws e, pValue1, .node p n v t u⟩
          | (none, pValue1) => ⟨.returns true, pValue1, .node p n v t true⟩) := by
  conv_lhs => unfold AlgorithmParameters.GetVoidValue
  rw [if_neg hn, if_pos rfl]

/-- What `AssignValue` does, as an outcome of the enclosing `GetVoidValue`. -/
theorem GetVoidValue_node_self (hook : Option IntToIntegerHook) (p : AlgorithmParameters)
    (n : String) (v : Value) (t u : Bool) (valueType : TypeInfo) (pValue : Value)
    (hn : n ≠ "ValueNames") :
    (AlgorithmParameters.GetVoidValue hook (.node p n v t u) n valueType pValue).ret
        = (match (AssignValue hook v n valueType pValue).1 with
            | some e => .throws e
            | none => .returns true) ∧
    (AlgorithmParameters.GetVoidValue hook (.node p n v t u) n valueType pValue).pValue
        = (AssignValue hook v n valueType pValue).2 := by
  unfold AlgorithmParameters.GetVoidValue
  rw [if_neg hn, if_pos rfl]
  rcases h : AssignValue hook v n valueType pValue with ⟨_ | e, pv1⟩ <;> simp

theorem GetVoidValue_node_other (hook : Option IntToIntegerHook) (p : AlgorithmParameters)
    (n : String) (v : Value) (t u : Bool) (name : String) (valueType : TypeInfo)
    (pValue : Value) (hn : name ≠ "ValueNames") (hne : name ≠ n) :
    AlgorithmParameters.GetVoidValue hook (.node p n v t u) name valueType pValue
      = ⟨(AlgorithmParameters.GetVoidValue hook p name valueType pValue).ret,
         (AlgorithmParameters.GetVoidValue hook p name valueType pValue).pValue,
         .node (AlgorithmParameters.GetVoidValue hook p name valueType pValue).self n v t u⟩ := by
  conv_lhs => unfold AlgorithmParameters.GetVoidValue
  rw [if_neg hn, if_neg hne]

/-- An ordinary query is answered by the outermost binding of that name, through `AssignValue`,
and is a miss that leaves slot and chain alone when there is none. -/
theorem GetVoidValue_find (hook : Option IntToIntegerHook) (name : String)
    (valueType : TypeInfo) (pValue : Value) (hn : name ≠ "ValueNames")
    (c : AlgorithmParameters) :
    (c.bindings.find? (fun b => decide (b.1 = name)) = none →
      AlgorithmParameters.GetVoidValue hook c name valueType pValue
        = ⟨.returns false, pValue, c⟩) ∧
    (∀ b, c.bindings.find? (fun b => decide (b.1 = name)) = some b →
      (AlgorithmParameters.GetVoidValue hook c name valueType pValue).ret
        = (match (AssignValue hook b.2 name valueType pValue).1 with
            | some e => .throws e
            | none => .returns true) ∧
      (AlgorithmParameters.GetVoidValue hook c name valueType pValue).pValue
        = (AssignValue hook b.2 name valueType pValue).2) := by
  induction c with
  | g_nullNameValuePairs =>
    simp [AlgorithmParameters.bindings, AlgorithmParameters.GetVoidValue]
  | node p n v t u ih =>
    by_cases hne : name = n
    · subst hne
      have h := GetVoidValue_node_self hook p name v t u valueType pValue hn
      simp [AlgorithmParameters.bindings, List.find?, h.1, h.2]
    · have hne2 : ¬ n = name := fun h => hne h.symm
      rw [GetVoidValue_node_other hook p n v t u name valueType pValue hn hne]
      simp only [AlgorithmParameters.bindings, List.find?, hne2, decide_False]
      constructor
      · intro h
        rw [ih.1 h]
      · intro b h
        exact ih.2 b h

theorem AssignValue_same (hook : Option IntToIntegerHook)
    (hk : hook = none ∨ hook = some AssignIntToIntegerImpl) (v : Value) (name : String)
    (pValue : Value) : AssignValue hook v name v.typeid pValue = (none, v) := by
  rcases hk with rfl | rfl <;> cases v <;>
    simp [AssignValue, ThrowIfTypeMismatch, AssignIntToIntegerImpl, Value.typeid]

theorem GetVoidValue_wrap (hook : Option IntToIntegerHook) (name : String)
    (valueType : TypeInfo) (pValue : Value) (hn : name ≠ "ValueNames")
    (inner : AlgorithmParameters) (outer : List (String × Value × Bool × Bool))
    (ho : ∀ b ∈ outer, b.1 ≠ name) :
    (AlgorithmParameters.GetVoidValue hook (inner.wrap outer) name valueType pValue).ret
      = (AlgorithmParameters.GetVoidValue hook inner name valueType pValue).ret ∧
    (AlgorithmParameters.GetVoidValue hook (inner.wrap outer) name valueType pValue).pValue
      = (AlgorithmParameters.GetVoidValue hook inner name valueType pValue).pValue := by
  induction outer with
  | nil => simp [AlgorithmParameters.wrap]
  | cons b rest ih =>
    obtain ⟨n, v, t, u⟩ := b
    have hne : name ≠ n := fun h => ho (n, v, t, u) (by simp) h.symm
    have ih2 := ih (fun b hb => ho b (by simp [hb]))
    simp only [AlgorithmParameters.wrap]
    rw [GetVoidValue_node_other hook _ n v t u name valueType pValue hn hne]
    exact ih2

/-! ## The parameter chain: resolution -/

/-- C1: for the chain `MakeParameters(name0, value0, f0)(...)...(...)` built with any chained
calls, with `AssignIntToInteger` null or the library's function, an ordinary query (not
`"ValueNames"`) resolved through the outermost node with the stored type returns found, with
the slot holding the value of the most recently added binding of that name (the first match in
the reversed list of bindings); when no binding has the name it returns not-found and leaves
the slot as it was, whatever type is requested. -/
theorem chain_resolves_most_recent_binding (hook : Option IntToIntegerHook)
    (hk : hook = none ∨ hook = some AssignIntToIntegerImpl)
    (name0 : String) (value0 : Value) (f0 : Bool) (calls : List WithCall)
    (name : String) (pValue : Value) (hn : name ≠ "ValueNames") :
    (∀ b, ((name0, value0) :: calls.map (fun w => (w.name, w.value))).reverse.find?
            (fun b => decide (b.1 = name)) = some b →
      (AlgorithmParameters.GetVoidValue hook (chain name0 value0 f0 calls) name b.2.typeid
          pValue).ret = .returns true ∧
      (AlgorithmParameters.GetVoidValue hook (chain name0 value0 f0 calls) name b.2.typeid
          pValue).pValue = b.2) ∧
    ((∀ b ∈ (name0, value0) :: calls.map (fun w => (w.name, w.value)), b.1 ≠ name) →
      ∀ valueType : TypeInfo,
      (AlgorithmParameters.GetVoidValue hook (chain name0 value0 f0 calls) name valueType
          pValue).ret = .returns false ∧
      (AlgorithmParameters.GetVoidValue hook (chain name0 value0 f0 calls) name valueType
          pValue).pValue = pValue) := by
  constructor
  · intro b hb
    rw [← bindings_chain name0 value0 f0 calls] at hb
    have h := (GetVoidValue_find hook name b.2.typeid pValue hn (chain name0 value0 f0 calls)).2
      b hb
    rw [AssignValue_same hook hk] at h
    exact h
  · intro hall valueType
    have hnone : (chain name0 value0 f0 calls).bindings.find? (fun b => decide (b.1 = name))
        = none := by
      rw [bindings_chain, List.find?_eq_none]
      intro b hb
      have := hall b (List.mem_reverse.mp hb)
      simpa using this
    rw [(GetVoidValue_find hook name valueType pValue hn (chain name0 value0 f0 calls)).1 hnone]
    exact ⟨rfl, rfl⟩

/-- C1, at the chains of the specification: `MakeParameters("a",1)("b","x")("c",3.0)` gives
`a = 1`, `b = "x"`, `c = 3.0` (bit pattern `0x4008000000000000`) and `"d"` not found, and
`MakeParameters("a",1)("a",2)` gives `a = 2`. -/
theorem chain_resolves_most_recent_binding_witness :
    ("a" ≠ "ValueNames" ∧ "b" ≠ "ValueNames" ∧ "c" ≠ "ValueNames" ∧ "d" ≠ "ValueNames") ∧
    (AlgorithmParameters.GetVoidValue none
      (chain "a" (.int 1) true [⟨"b", .string "x", none⟩, ⟨"c", .double 0x4008000000000000, none⟩])
      "a" .int (.int 0)).pValue = .int 1 ∧
    (AlgorithmParameters.GetVoidValue none
      (chain "a" (.int 1) true [⟨"b", .string "x", none⟩, ⟨"c", .double 0x4008000000000000, none⟩])
      "b" .string (.string "")).pValue = .string "x" ∧
    (AlgorithmParameters.GetVoidValue none
      (chain "a" (.int 1) true [⟨"b", .string "x", none⟩, ⟨"c", .double 0x4008000000000000, none⟩])
      "c" .double (.double 0)).pValue = .double 0x4008000000000000 ∧
    (AlgorithmParameters.GetVoidValue none
      (chain "a" (.int 1) true [⟨"b", .string "x", none⟩, ⟨"c", .double 0x4008000000000000, none⟩])
      "d" .int (.int 0)).ret = .returns false ∧
    (AlgorithmParameters.GetVoidValue none
      (chain "a" (.int 1) true [⟨"a", .int 2, none⟩]) "a" .int (.int 0)).pValue = .int 2 :=
  ⟨by decide,
   ((chain_resolves_most_recent_binding none (Or.inl rfl) "a" (.int 1) true
      [⟨"b", .string "x", none⟩, ⟨"c", .double 0x4008000000000000, none⟩] "a" (.int 0)
      (by decide)).1 ("a", .int 1) (by decide)).2,
   ((chain_resolves_most_recent_binding none (Or.inl rfl) "a" (.int 1) true
      [⟨"b", .string "x", none⟩, ⟨"c", .double 0x4008000000000000, none⟩] "b" (.string "")
      (by decide)).1 ("b", .string "x") (by decide)).2,
   ((chain_resolves_most_recent_binding none (Or.inl rfl) "a" (.int 1) true
      [⟨"b", .string "x", none⟩, ⟨"c", .double 0x4008000000000000, none⟩] "c" (.double 0)
      (by decide)).1 ("c", .double 0x4008000000000000) (by decide)).2,
   ((chain_resolves_most_recent_binding none (Or.inl rfl) "a" (.int 1) true
      [⟨"b", .string "x", none⟩, ⟨"c", .double 0x4008000000000000, none⟩] "d" (.int 0)
      (by decide)).2 (by decide) .int).1,
   ((chain_resolves_most_recent_binding none (Or.inl rfl) "a" (.int 1) true
      [⟨"a", .int 2, none⟩] "a" (.int 0) (by decide)).1 ("a", .int 2) (by decide)).2⟩

/-- C2: take a node storing `v` under the name `n`, at any depth below further nodes of other
names, with `AssignIntToInteger` null or the library's function. Resolving `n` with requested
type `U` (a) copies `v` out when `U` is the type of `v`; (b) throws `ValueTypeMismatch`, the
slot untouched, when `U` differs, unless `v` is an `int`, `U` is `Integer` and the hook is
installed; (c) in that one case returns found with the slot holding the `Integer` of the same
value; and (d) for a `v` that is no `int` the whole result is the same under any two hooks, so
the hook is not consulted. -/
theorem node_resolve_type_check (hook : Option IntToIntegerHook)
    (hk : hook = none ∨ hook = some AssignIntToIntegerImpl)
    (outer : List (String × Value × Bool × Bool)) (p : AlgorithmParameters) (n : String)
    (v : Value) (t u : Bool) (U : TypeInfo) (pValue : Value)
    (hn : n ≠ "ValueNames") (ho : ∀ b ∈ outer, b.1 ≠ n) :
    (U = v.typeid →
      (AlgorithmParameters.GetVoidValue hook ((AlgorithmParameters.node p n v t u).wrap outer)
          n U pValue).ret = .returns true ∧
      (AlgorithmParameters.GetVoidValue hook ((AlgorithmParameters.node p n v t u).wrap outer)
          n U pValue).pValue = v) ∧
    (U ≠ v.typeid →
      ¬ (hook = some AssignIntToIntegerImpl ∧ v.typeid = .int ∧ U = .Integer) →
      (AlgorithmParameters.GetVoidValue hook ((AlgorithmParameters.node p n v t u).wrap outer)
          n U pValue).ret = .throws (.ValueTypeMismatch n v.typeid U) ∧
      (AlgorithmParameters.GetVoidValue hook ((AlgorithmParameters.node p n v t u).wrap outer)
          n U pValue).pValue = pValue) ∧
    (∀ i : Int, hook = some AssignIntToIntegerImpl → v = .int i → U = .Integer →
      (AlgorithmParameters.GetVoidValue hook ((AlgorithmParameters.node p n v t u).wrap outer)
          n U pValue).ret = .returns true ∧
      (AlgorithmParameters.GetVoidValue hook ((AlgorithmParameters.node p n v t u).wrap outer)
          n U pValue).pValue = .Integer i) ∧
    (v.typeid ≠ .int → ∀ hook1 hook2 : Option IntToIntegerHook,
      AlgorithmParameters.GetVoidValue hook1 ((AlgorithmParameters.node p n v t u).wrap outer)
          n U pValue
        = AlgorithmParameters.GetVoidValue hook2
            ((AlgorithmParameters.node p n v t u).wrap outer) n U pValue) := by
  have hw := GetVoidValue_wrap hook n U pValue hn (.node p n v t u) outer ho
  have hs := GetVoidValue_node_self hook p n v t u U pValue hn
  rw [hw.1, hw.2, hs.1, hs.2]
  refine ⟨?_, ?_, ?_, ?_⟩
  · intro hU
    subst hU
    rw [AssignValue_same hook hk]
    exact ⟨rfl, rfl⟩
  · intro hU hex
    have hU2 : ¬ v.typeid = U := fun h => hU h.symm
    rcases hk with rfl | rfl
    · cases v <;> simp [AssignValue, ThrowIfTypeMismatch, hU2]
    · cases v <;> simp_all [AssignValue, ThrowIfTypeMismatch, AssignIntToIntegerImpl,
        Value.typeid]
  · intro i hh hv hU
    subst hh hv hU
    simp [AssignValue, AssignIntToIntegerImpl]
  · intro hv hook1 hook2
    clear hw hs hk
    induction outer with
    | nil =>
      simp only [AlgorithmParameters.wrap]
      have : AssignValue hook1 v n U pValue = AssignValue hook2 v n U pValue := by
        cases v <;> cases hook1 <;> cases hook2 <;> simp_all [AssignValue, Value.typeid]
      rw [GetVoidValue_node_self_eq hook1 p n v t u U pValue hn,
        GetVoidValue_node_self_eq hook2 p n v t u U pValue hn, this]
    | cons b rest ih =>
      obtain ⟨n1, v1, t1, u1⟩ := b
      have hne : n ≠ n1 := fun h => ho (n1, v1, t1, u1) (by simp) h.symm
      have ih2 := ih (fun b hb => ho b (by simp [hb]))
      simp only [AlgorithmParameters.wrap]
      rw [GetVoidValue_node_other hook1 _ n1 v1 t1 u1 n U pValue hn hne,
        GetVoidValue_node_other hook2 _ n1 v1 t1 u1 n U pValue hn hne, ih2]

/-- C2, at `MakeParameters("a", 1)("b", "x")`: the node `a`, one level down, answers a request
for `Integer` with `Integer 1` once the hook is installed, and a request for `double` with
`ValueTypeMismatch`. -/
theorem node_resolve_type_check_witness :
    "a" ≠ "ValueNames" ∧
    (∀ b ∈ [("b", Value.string "x", true, false)], b.1 ≠ "a") ∧
    (AlgorithmParameters.GetVoidValue (some AssignIntToIntegerImpl)
      ((AlgorithmParameters.node .g_nullNameValuePairs "a" (.int 1) true false).wrap
        [("b", Value.string "x", true, false)]) "a" .Integer (.Integer 0)).pValue
      = .Integer 1 ∧
    (AlgorithmParameters.GetVoidValue (some AssignIntToIntegerImpl)
      ((AlgorithmParameters.node .g_nullNameValuePairs "a" (.int 1) true false).wrap
        [("b", Value.string "x", true, false)]) "a" .double (.double 0)).ret
      = .throws (.ValueTypeMismatch "a" .int .double) :=
  ⟨by decide, by decide,
   ((node_resolve_type_check (some AssignIntToIntegerImpl) (Or.inr rfl)
      [("b", Value.string "x", true, false)] .g_nullNameValuePairs "a" (.int 1) true false
      .Integer (.Integer 0) (by decide) (by decide)).2.2.1 1 rfl rfl rfl).2,
   ((node_resolve_type_check (some AssignIntToIntegerImpl) (Or.inr rfl)
      [("b", Value.string "x", true, false)] .g_nullNameValuePairs "a" (.int 1) true false
      .double (.double 0) (by decide) (by decide)).2.1 (by decide)
      (fun h => absurd h.2.2 (by decide))).1⟩

/-! ## The parameter chain: teardown and construction -/

/-- C3, as the source has it: the destructor lets `ParameterNotUsed`, whose message names the
binding, escape exactly when `CRYPTOPP_UNCAUGHT_EXCEPTION_AVAILABLE` is defined, the node has
`m_throwIfNotUsed`, `m_used` is false and no exception is unwinding; in every other case,
thus always in a build without that macro, it lets nothing escape. -/
theorem destructor_throws_iff (CRYPTOPP_UNCAUGHT_EXCEPTION_AVAILABLE uncaught_exception : Bool)
    (m_name : String) (m_throwIfNotUsed m_used : Bool) :
    (AlgorithmParametersBase.destructor CRYPTOPP_UNCAUGHT_EXCEPTION_AVAILABLE
        uncaught_exception m_name m_throwIfNotUsed m_used
      = some (.ParameterNotUsed
          ("AlgorithmParametersBase: parameter \"" ++ m_name ++ "\" not used"))
      ↔ (CRYPTOPP_UNCAUGHT_EXCEPTION_AVAILABLE = true ∧ m_throwIfNotUsed = true ∧
          m_used = false ∧ uncaught_exception = false)) ∧
    (AlgorithmParametersBase.destructor CRYPTOPP_UNCAUGHT_EXCEPTION_AVAILABLE
        uncaught_exception m_name m_throwIfNotUsed m_used = none
      ↔ ¬ (CRYPTOPP_UNCAUGHT_EXCEPTION_AVAILABLE = true ∧ m_throwIfNotUsed = true ∧
          m_used = false ∧ uncaught_exception = false)) := by
  cases CRYPTOPP_UNCAUGHT_EXCEPTION_AVAILABLE <;> cases uncaught_exception <;>
    cases m_throwIfNotUsed <;> cases m_used <;>
    simp [AlgorithmParametersBase.destructor]

/-- C3, as stated, fails in a build without `CRYPTOPP_UNCAUGHT_EXCEPTION_AVAILABLE`: the node
`"a"` with `m_throwIfNotUsed`, never used, torn down while nothing is unwinding, lets nothing
escape, where the same node in a build with the macro throws `ParameterNotUsed`. -/
theorem destructor_silent_without_uncaught_exception :
    AlgorithmParametersBase.destructor false false "a" true false = none ∧
    AlgorithmParametersBase.destructor true false "a" true false
      = some (.ParameterNotUsed "AlgorithmParametersBase: parameter \"a\" not used") := by
  decide

/-- C4: `MakeParameters(name, value)` is a node with `m_throwIfNotUsed = true` on the empty
catalog; `node(name2, value2)` takes the flag of the node it is called on and
`node(name2, value2, f)` takes `f`. Each new node holds the given name and value, has
`m_used = false`, and its `m_parent` is, member for member and ancestor for ancestor, the node
it was called on as that was before the call. -/
theorem builders_make_fresh_node (name : String) (value : Value) (p : AlgorithmParameters)
    (n : String) (v : Value) (t u : Bool) (name2 : String) (value2 : Value) (f : Bool) :
    MakeParametersDefault name value = .node .g_nullNameValuePairs name value true false ∧
    ((AlgorithmParameters.node p n v t u).call name2 value2).1
      = .node (.node p n v t u) name2 value2 t false ∧
    ((AlgorithmParameters.node p n v t u).callFlag name2 value2 f).1
      = .node (.node p n v t u) name2 value2 f false := by
  refine ⟨rfl, ?_, ?_⟩
  · simp only [AlgorithmParameters.call, AlgorithmParameters.ctor,
      AlgorithmParameters_copy_fst, AlgorithmParameters.m_throwIfNotUsed]
  · simp only [AlgorithmParameters.callFlag, AlgorithmParameters.ctor,
      AlgorithmParameters_copy_fst]

/-! ## The mutator table -/

theorem AssignFromEntry_apply_thrown {σ : Type} (T : String) (Get : NameValuePairs σ)
    (h : AssignFromHelperClass σ) (x : AssignFromEntry) (ht : h.thrown.isSome = true) :
    x.apply T Get h = h := by
  cases x <;>
    simp [AssignFromEntry.apply, AssignFromHelperClass.named, AssignFromHelperClass.named2, ht]

theorem AssignFromEntry_apply_done {σ : Type} (T : String) (Get : NameValuePairs σ)
    (h : AssignFromHelperClass σ) (x : AssignFromEntry) (hd : h.m_done = true) :
    x.apply T Get h = h := by
  cases x <;>
    simp [AssignFromEntry.apply, AssignFromHelperClass.named, AssignFromHelperClass.named2, hd]

theorem AssignFromEntry_apply_m_done {σ : Type} (T : String) (Get : NameValuePairs σ)
    (h : AssignFromHelperClass σ) (x : AssignFromEntry) :
    (x.apply T Get h).m_done = h.m_done := by
  cases x with
  | one name R pm =>
    simp only [AssignFromEntry.apply, AssignFromHelperClass.named]
    split
    · rfl
    · split
      · split <;> rfl
      · rfl
  | two name1 name2 R S pm =>
    simp only [AssignFromEntry.apply, AssignFromHelperClass.named2]
    split
    · rfl
    · split
      · split
        · rfl
        · rfl
        · split <;> rfl
      · rfl

theorem AssignFrom_foldl_thrown {σ : Type} (T : String) (Get : NameValuePairs σ)
    (xs : List AssignFromEntry) (h : AssignFromHelperClass σ) (ht : h.thrown.isSome = true) :
    xs.foldl (AssignFromEntry.apply T Get) h = h := by
  induction xs with
  | nil => rfl
  | cons x xs ih => rw [List.foldl, AssignFromEntry_apply_thrown T Get h x ht, ih]

theorem AssignFrom_foldl_done {σ : Type} (T : String) (Get : NameValuePairs σ)
    (xs : List AssignFromEntry) (h : AssignFromHelperClass σ) (hd : h.m_done = true) :
    xs.foldl (AssignFromEntry.apply T Get) h = h := by
  induction xs with
  | nil => rfl
  | cons x xs ih => rw [List.foldl, AssignFromEntry_apply_done T Get h x hd, ih]

theorem AssignFrom_foldl_m_done {σ : Type} (T : String) (Get : NameValuePairs σ)
    (xs : List AssignFromEntry) (h : AssignFromHelperClass σ) :
    (xs.foldl (AssignFromEntry.apply T Get) h).m_done = h.m_done := by
  induction xs generalizing h with
  | nil => rfl
  | cons x xs ih => rw [List.foldl, ih, AssignFromEntry_apply_m_done]

/-- Without the whole-object copy the helper is never done, whatever links have run. -/
theorem AssignFromHelper_not_done {σ : Type} (T BASE : String) (Get : NameValuePairs σ)
    (BASE_AssignFrom : Value → σ → AssignResult σ) (entries : List AssignFromEntry)
    (pObject : Value) (source : σ)
    (hfast : (GetThisObject Get source T pObject).ret = .returns false) :
    (AssignFromHelper T BASE Get BASE_AssignFrom entries pObject source).m_done = false := by
  unfold AssignFromHelper
  rw [AssignFrom_foldl_m_done]
  unfold AssignFromHelperClass.ctor
  simp only [hfast]
  split <;> rfl

theorem AssignFromHelper_append {σ : Type} (T BASE : String) (Get : NameValuePairs σ)
    (BASE_AssignFrom : Value → σ → AssignResult σ) (pre post : List AssignFromEntry)
    (pObject : Value) (source : σ) :
    AssignFromHelper T BASE Get BASE_AssignFrom (pre ++ post) pObject source
      = post.foldl (AssignFromEntry.apply T Get)
          (AssignFromHelper T BASE Get BASE_AssignFrom pre pObject source) := by
  simp [AssignFromHelper, List.foldl_append]

/-- C5: let the source not expose `ThisObject:<T>` for the target, and let `h` be the helper
after the links `pre`, none of which raised. If the source does not resolve the name of the
next link, the whole statement ends with `InvalidArgument` carrying
`<T>: Missing required parameter '<name>'`, the target is as it was before that link (its
mutator did not run) and the source was queried once more, for that name. For a link with two
names the first is pulled first: when it is missing the second is not pulled, and when it
resolves and the second is missing the error names the second. No later link changes this. -/
theorem AssignFrom_missing_required_parameter {σ : Type} (T BASE : String)
    (Get : NameValuePairs σ) (BASE_AssignFrom : Value → σ → AssignResult σ)
    (pre post : List AssignFromEntry) (pObject : Value) (source : σ)
    (h : AssignFromHelperClass σ)
    (hh : AssignFromHelper T BASE Get BASE_AssignFrom pre pObject source = h)
    (hfast : (GetThisObject Get source T pObject).ret = .returns false)
    (hpre : h.thrown = none) :
    (∀ name R pm, (Get h.m_source name R R.defaultValue).ret = .returns false →
      AssignFromHelper T BASE Get BASE_AssignFrom (pre ++ .one name R pm :: post) pObject source
        = { m_pObject := h.m_pObject,
            m_source := (Get h.m_source name R R.defaultValue).self,
            m_done := false,
            thrown := some (.InvalidArgument
              (T ++ ": Missing required parameter '" ++ name ++ "'")) }) ∧
    (∀ name1 name2 R S pm, (Get h.m_source name1 R R.defaultValue).ret = .returns false →
      AssignFromHelper T BASE Get BASE_AssignFrom (pre ++ .two name1 name2 R S pm :: post)
          pObject source
        = { m_pObject := h.m_pObject,
            m_source := (Get h.m_source name1 R R.defaultValue).self,
            m_done := false,
            thrown := some (.InvalidArgument
              (T ++ ": Missing required parameter '" ++ name1 ++ "'")) }) ∧
    (∀ name1 name2 R S pm, (Get h.m_source name1 R R.defaultValue).ret = .returns true →
      (Get (Get h.m_source name1 R R.defaultValue).self name2 S S.defaultValue).ret
        = .returns false →
      AssignFromHelper T BASE Get BASE_AssignFrom (pre ++ .two name1 name2 R S pm :: post)
          pObject source
        = { m_pObject := h.m_pObject,
            m_source :=
              (Get (Get h.m_source name1 R R.defaultValue).self name2 S S.defaultValue).self,
            m_done := false,
            thrown := some (.InvalidArgument
              (T ++ ": Missing required parameter '" ++ name2 ++ "'")) }) := by
  have hd : h.m_done = false := by
    rw [← hh]
    exact AssignFromHelper_not_done T BASE Get BASE_AssignFrom pre pObject source hfast
  refine ⟨?_, ?_, ?_⟩
  · intro name R pm hr
    rw [AssignFromHelper_append, hh, List.foldl]
    have step : AssignFromEntry.apply T Get h (.one name R pm)
        = { m_pObject := h.m_pObject,
            m_source := (Get h.m_source name R R.defaultValue).self,
            m_done := false,
            thrown := some (.InvalidArgument
              (T ++ ": Missing required parameter '" ++ name ++ "'")) } := by
      simp [AssignFromEntry.apply, AssignFromHelperClass.named, hpre, hd,
        Hack_GetValueIntoConstReference, GetValue, hr, missingRequiredParameter]
    rw [step]
    exact AssignFrom_foldl_thrown T Get post _ rfl
  · intro name1 name2 R S pm hr
    rw [AssignFromHelper_append, hh, List.foldl]
    have step : AssignFromEntry.apply T Get h (.two name1 name2 R S pm)
        = { m_pObject := h.m_pObject,
            m_source := (Get h.m_source name1 R R.defaultValue).self,
            m_done := false,
            thrown := some (.InvalidArgument
              (T ++ ": Missing required parameter '" ++ name1 ++ "'")) } := by
      simp [AssignFromEntry.apply, AssignFromHelperClass.named2, hpre, hd,
        Hack_GetValueIntoConstReference, GetValue, hr, missingRequiredParameter]
    rw [step]
    exact AssignFrom_foldl_thrown T Get post _ rfl
  · intro name1 name2 R S pm hr1 hr2
    rw [AssignFromHelper_append, hh, List.foldl]
    have step : AssignFromEntry.apply T Get h (.two name1 name2 R S pm)
        = { m_pObject := h.m_pObject,
            m_source :=
              (Get (Get h.m_source name1 R R.defaultValue).self name2 S S.defaultValue).self,
            m_done := false,
            thrown := some (.InvalidArgument
              (T ++ ": Missing required parameter '" ++ name2 ++ "'")) } := by
      simp [AssignFromEntry.apply, AssignFromHelperClass.named2, hpre, hd,
        Hack_GetValueIntoConstReference, GetValue, hr1, hr2, missingRequiredParameter]
    rw [step]
    exact AssignFrom_foldl_thrown T Get post _ rfl

/-- C5, with the chain `MakeParameters("a", 7)` as source and a class `Obj` that declares
`("a", SetMember0)("b", SetMember1)("c", SetMember0)`: the link `b` raises
`Obj: Missing required parameter 'b'` after `a` was assigned, and `c` is never tried. -/
theorem AssignFrom_missing_required_parameter_witness :
    AssignFromHelper "Obj" "Obj" (AlgorithmParameters.GetVoidValue none) sampleBaseAssignFrom
        ([.one "a" .int (sampleSetMember 0)]
          ++ .one "b" .int (sampleSetMember 1) :: [.one "c" .int (sampleSetMember 0)])
        (.object "Obj" [0, 0]) (MakeParametersDefault "a" (.int 7))
      = { m_pObject := .object "Obj" [7, 0],
          m_source := .node .g_nullNameValuePairs "a" (.int 7) true true,
          m_done := false,
          thrown := some (.InvalidArgument "Obj: Missing required parameter 'b'") } :=
  (AssignFrom_missing_required_parameter "Obj" "Obj" (AlgorithmParameters.GetVoidValue none)
    sampleBaseAssignFrom [.one "a" .int (sampleSetMember 0)] [.one "c" .int (sampleSetMember 0)]
    (.object "Obj" [0, 0]) (MakeParametersDefault "a" (.int 7))
    { m_pObject := .object "Obj" [7, 0],
      m_source := .node .g_nullNameValuePairs "a" (.int 7) true true,
      m_done := false, thrown := none }
    (by decide) (by decide) rfl).1 "b" .int (sampleSetMember 1) (by decide)

/-- C6: let the source not expose `ThisObject:<T>` for the target, and let `h` be the helper
after the links `pre`, none of which raised. If the source resolves the name of the next link,
then after that link nothing is raised, the source was queried for that name only, and the
target is the mutator applied, once, to the target as it was and to the value the source wrote
into the fresh `R()` variable. For a link with two names the source is queried for `name1` and
then `name2`, and the mutator receives the value of `name1` first and that of `name2` second.
This holds for every mutator, so the link does nothing else to the target. -/
theorem AssignFrom_invokes_mutator {σ : Type} (T BASE : String)
    (Get : NameValuePairs σ) (BASE_AssignFrom : Value → σ → AssignResult σ)
    (pre : List AssignFromEntry) (pObject : Value) (source : σ)
    (h : AssignFromHelperClass σ)
    (hh : AssignFromHelper T BASE Get BASE_AssignFrom pre pObject source = h)
    (hfast : (GetThisObject Get source T pObject).ret = .returns false)
    (hpre : h.thrown = none) :
    (∀ name R pm, (Get h.m_source name R R.defaultValue).ret = .returns true →
      AssignFromHelper T BASE Get BASE_AssignFrom (pre ++ [.one name R pm]) pObject source
        = { m_pObject := pm h.m_pObject (Get h.m_source name R R.defaultValue).pValue,
            m_source := (Get h.m_source name R R.defaultValue).self,
            m_done := false,
            thrown := none }) ∧
    (∀ name1 name2 R S pm, (Get h.m_source name1 R R.defaultValue).ret = .returns true →
      (Get (Get h.m_source name1 R R.defaultValue).self name2 S S.defaultValue).ret
        = .returns true →
      AssignFromHelper T BASE Get BASE_AssignFrom (pre ++ [.two name1 name2 R S pm]) pObject
          source
        = { m_pObject := pm h.m_pObject (Get h.m_source name1 R R.defaultValue).pValue
              (Get (Get h.m_source name1 R R.defaultValue).self name2 S S.defaultValue).pValue,
            m_source :=
              (Get (Get h.m_source name1 R R.defaultValue).self name2 S S.defaultValue).self,
            m_done := false,
            thrown := none }) := by
  have hd : h.m_done = false := by
    rw [← hh]
    exact AssignFromHelper_not_done T BASE Get BASE_AssignFrom pre pObject source hfast
  constructor
  · intro name R pm hr
    rw [AssignFromHelper_append, hh]
    simp [List.foldl, AssignFromEntry.apply, AssignFromHelperClass.named, hpre, hd,
      Hack_GetValueIntoConstReference, GetValue, hr]
  · intro name1 name2 R S pm hr1 hr2
    rw [AssignFromHelper_append, hh]
    simp [List.foldl, AssignFromEntry.apply, AssignFromHelperClass.named2, hpre, hd,
      Hack_GetValueIntoConstReference, GetValue, hr1, hr2]

/-- C6, with the chain `MakeParameters("a", 7)("b", 9)` as source and a class `Obj` that
declares `("a", SetMember1)("a", "b", SetBoth)`: after `a` set member 1, the two-name link
sets the members to the value of `a` and the value of `b`, in this order. -/
theorem AssignFrom_invokes_mutator_witness :
    AssignFromHelper "Obj" "Obj" (AlgorithmParameters.GetVoidValue none) sampleBaseAssignFrom
        ([.one "a" .int (sampleSetMember 1)] ++ [.two "a" "b" .int .int sampleSetBoth])
        (.object "Obj" [0, 0]) (chain "a" (.int 7) true [⟨"b", .int 9, none⟩])
      = { m_pObject := .object "Obj" [7, 9],
          m_source := .node (.node .g_nullNameValuePairs "a" (.int 7) true true)
            "b" (.int 9) true true,
          m_done := false,
          thrown := none } :=
  (AssignFrom_invokes_mutator "Obj" "Obj" (AlgorithmParameters.GetVoidValue none)
    sampleBaseAssignFrom [.one "a" .int (sampleSetMember 1)]
    (.object "Obj" [0, 0]) (chain "a" (.int 7) true [⟨"b", .int 9, none⟩])
    { m_pObject := .object "Obj" [0, 7],
      m_source := .node (.node .g_nullNameValuePairs "a" (.int 7) true true)
        "b" (.int 9) true false,
      m_done := false, thrown := none }
    (by decide) (by decide) rfl).2 "a" "b" .int .int sampleSetBoth (by decide) (by decide)

/-- C7: if the source resolves `ThisObject:<T>` for the target, then whatever the base class,
its `AssignFrom` and the declared links are, the statement ends with the target holding what
the source wrote over it, the source in the state that one query left it in, `m_done` set and
nothing raised. So no mutator and no `BASE::AssignFrom` ran and no declared name was pulled,
present in the source or not. -/
theorem AssignFrom_whole_object_copy {σ : Type} (T BASE : String)
    (Get : NameValuePairs σ) (BASE_AssignFrom : Value → σ → AssignResult σ)
    (entries : List AssignFromEntry) (pObject : Value) (source : σ)
    (hfast : (Get source ("ThisObject:" ++ T) (.object T) pObject).ret = .returns true) :
    AssignFromHelper T BASE Get BASE_AssignFrom entries pObject source
      = { m_pObject := (Get source ("ThisObject:" ++ T) (.object T) pObject).pValue,
          m_source := (Get source ("ThisObject:" ++ T) (.object T) pObject).self,
          m_done := true,
          thrown := none } := by
  unfold AssignFromHelper
  have hc : AssignFromHelperClass.ctor T BASE Get BASE_AssignFrom pObject source
      = { m_pObject := (Get source ("ThisObject:" ++ T) (.object T) pObject).pValue,
          m_source := (Get source ("ThisObject:" ++ T) (.object T) pObject).self,
          m_done := true,
          thrown := none } := by
    simp [AssignFromHelperClass.ctor, GetThisObject, GetValue, hfast]
  rw [hc]
  exact AssignFrom_foldl_done T Get entries _ rfl

/-- C7, with a source that binds `ThisObject:Obj` to an object and nothing else: the target
becomes that object although the declared names `a` and `b` are absent, and `a` is not
queried. -/
theorem AssignFrom_whole_object_copy_witness :
    AssignFromHelper "Obj" "Base" (AlgorithmParameters.GetVoidValue none) sampleBaseAssignFrom
        [.one "a" .int (sampleSetMember 0), .two "a" "b" .int .int sampleSetBoth]
        (.object "Obj" [0, 0])
        (MakeParametersDefault "ThisObject:Obj" (.object "Obj" [3, 4]))
      = { m_pObject := .object "Obj" [3, 4],
          m_source := .node .g_nullNameValuePairs "ThisObject:Obj" (.object "Obj" [3, 4])
            true true,
          m_done := true,
          thrown := none } :=
  AssignFrom_whole_object_copy "Obj" "Base" (AlgorithmParameters.GetVoidValue none)
    sampleBaseAssignFrom
    [.one "a" .int (sampleSetMember 0), .two "a" "b" .int .int sampleSetBoth]
    (.object "Obj" [0, 0]) (MakeParametersDefault "ThisObject:Obj" (.object "Obj" [3, 4]))
    (by decide)

/-! ## The accessor table -/

/-- The pair of tests `strncmp(s, lit, n) == 0 && strcmp(s + n, T) == 0`, with `n` the length
of `lit`, holds exactly when `s` is `lit` followed by `T`. -/
theorem reserved_name_test (s lit T : String) (n : Nat) (hl : lit.length = n) :
    (strncmpEq s lit n && strcmpFromEq s n T) = true ↔ s = lit ++ T := by
  have hl2 : lit.data.length = n := hl
  simp only [strncmpEq, strcmpFromEq, Bool.and_eq_true, beq_iff_eq]
  rw [← hl2, List.take_length]
  constructor
  · rintro ⟨h1, h2⟩
    apply String.ext
    rw [String.data_append, ← h1, ← h2, List.take_append_drop]
  · rintro rfl
    simp [String.data_append]

theorem GetValueEntry_apply_thrown {σ : Type} (T : String) (h : GetValueHelperClass σ)
    (x : GetValueEntry) (ht : h.thrown.isSome = true) : x.apply T h = h := by
  cases x <;>
    simp [GetValueEntry.apply, GetValueHelperClass.named, GetValueHelperClass.Assignable, ht]

theorem GetValueEntry_apply_found {σ : Type} (T : String) (h : GetValueHelperClass σ)
    (x : GetValueEntry) (hf : h.m_found = true) (hg : h.m_getValueNames = false) :
    x.apply T h = h := by
  cases x <;>
    simp [GetValueEntry.apply, GetValueHelperClass.named, GetValueHelperClass.Assignable, hf, hg]

theorem GetValue_foldl_thrown {σ : Type} (T : String) (xs : List GetValueEntry)
    (h : GetValueHelperClass σ) (ht : h.thrown.isSome = true) :
    xs.foldl (GetValueEntry.apply T) h = h := by
  induction xs with
  | nil => rfl
  | cons x xs ih => rw [List.foldl, GetValueEntry_apply_thrown T h x ht, ih]

theorem GetValue_foldl_found {σ : Type} (T : String) (xs : List GetValueEntry)
    (h : GetValueHelperClass σ) (hf : h.m_found = true) (hg : h.m_getValueNames = false) :
    xs.foldl (GetValueEntry.apply T) h = h := by
  induction xs with
  | nil => rfl
  | cons x xs ih => rw [List.foldl, GetValueEntry_apply_found T h x hf hg, ih]

/-- One link on a helper that has found nothing yet, lists no names and carries no exception:
a link of another name does nothing; a link of the queried name writes its value and sets
`m_found` when its type is the requested one, and throws `ValueTypeMismatch` otherwise. -/
theorem GetValueEntry_apply_pending {σ : Type} (T : String) (h : GetValueHelperClass σ)
    (x : GetValueEntry) (ht : h.thrown = none) (hf : h.m_found = false)
    (hg : h.m_getValueNames = false) :
    (x.name T ≠ h.m_name → x.apply T h = h) ∧
    (x.name T = h.m_name → x.type T = h.m_valueType →
      x.apply T h = { h with m_pValue := x.value h.object, m_found := true }) ∧
    (x.name T = h.m_name → x.type T ≠ h.m_valueType →
      x.apply T h
        = { h with thrown := some (.ValueTypeMismatch h.m_name (x.type T) h.m_valueType) }) := by
  obtain ⟨pObject, object, m_name, m_valueType, m_pValue, m_found, m_getValueNames, sf, thrown⟩
    := h
  simp only at ht hf hg
  subst ht hf hg
  cases x with
  | named name R pm =>
    simp only [GetValueEntry.name, GetValueEntry.type, GetValueEntry.value,
      GetValueEntry.apply, GetValueHelperClass.named]
    refine ⟨?_, ?_, ?_⟩
    · intro hne
      simp [hne]
    · intro he hty
      simp [he, hty, ThrowIfTypeMismatch]
    · intro he hty
      simp [he, hty, ThrowIfTypeMismatch]
  | Assignable =>
    have key := reserved_name_test m_name "ThisObject:" T 11 (by decide)
    simp only [GetValueEntry.name, GetValueEntry.type, GetValueEntry.value,
      GetValueEntry.apply, GetValueHelperClass.Assignable]
    refine ⟨?_, ?_, ?_⟩
    · intro hne
      have hk : ¬ (strncmpEq m_name "ThisObject:" 11 && strcmpFromEq m_name 11 T) = true :=
        fun hc => hne (key.mp hc).symm
      simp only [Bool.and_eq_true] at hk
      simp only [Option.isSome_none, Bool.false_eq_true, ↓reduceIte, Bool.not_false,
        Bool.true_and, Bool.and_eq_true, hk]
    · intro he hty
      have hk := key.mpr he.symm
      simp only [Bool.and_eq_true] at hk
      simp [hk, hty, ThrowIfTypeMismatch]
    · intro he hty
      have hk := key.mpr he.symm
      simp only [Bool.and_eq_true] at hk
      simp [hk, hty, ThrowIfTypeMismatch]

theorem GetValue_foldl_no_match {σ : Type} (T : String) (xs : List GetValueEntry)
    (h : GetValueHelperClass σ) (ht : h.thrown = none) (hf : h.m_found = false)
    (hg : h.m_getValueNames = false) (hx : ∀ x ∈ xs, x.name T ≠ h.m_name) :
    xs.foldl (GetValueEntry.apply T) h = h := by
  induction xs with
  | nil => rfl
  | cons x xs ih =>
    rw [List.foldl, (GetValueEntry_apply_pending T h x ht hf hg).1 (hx x (by simp))]
    exact ih (fun y hy => hx y (by simp [hy]))

/-- The constructor on an ordinary query that neither the delegate nor the base resolves: the
helper has found nothing, the slot and the object are as they were, and only the delegate may
have changed its own state. -/
theorem GetValueHelperClass_ctor_miss {σ : Type} (T BASE : String)
    (BASE_GetVoidValue : NameValuePairs Value) (searchFirst : Option (NameValuePairs σ))
    (pObject : Nat) (object : Value) (name : String) (valueType : TypeInfo) (pValue : Value)
    (delegate : σ) (hn : name ≠ "ValueNames") (hp : name ≠ "ThisPointer:" ++ T)
    (hdel : ∀ g, searchFirst = some g →
      (g delegate name valueType pValue).ret = .returns false ∧
      (g delegate name valueType pValue).pValue = pValue)
    (hbase : T ≠ BASE →
      BASE_GetVoidValue object name valueType pValue = ⟨.returns false, pValue, object⟩) :
    GetValueHelperClass.ctor T BASE BASE_GetVoidValue searchFirst pObject object name valueType
        pValue delegate
      = { m_pObject := pObject, object := object, m_name := name, m_valueType := valueType,
          m_pValue := pValue, m_found := false, m_getValueNames := false,
          searchFirst := (match searchFirst with
            | some g => (g delegate name valueType pValue).self
            | none => delegate),
          thrown := none } := by
  have hk : ¬ (strncmpEq name "ThisPointer:" 12 && strcmpFromEq name 12 T) = true :=
    fun hc => hp ((reserved_name_test name "ThisPointer:" T 12 (by decide)).mp hc)
  simp only [Bool.and_eq_true] at hk
  unfold GetValueHelperClass.ctor
  cases searchFirst with
  | none =>
    by_cases hTB : T = BASE
    · subst hTB
      simp [hn, hk]
    · simp [hn, hk, hTB, hbase hTB]
  | some g =>
    obtain ⟨h1, h2⟩ := hdel g rfl
    by_cases hTB : T = BASE
    · subst hTB
      simp [hn, hk, h1, h2]
    · simp [hn, hk, hTB, h1, h2, hbase hTB]

/-- C8: take an ordinary query (not `"ValueNames"`, not `ThisPointer:<T>`) that the delegate,
if there is one, and the base-equivalent resolver, if `T` is not `BASE`, do not resolve (each
returns not-found and leaves the slot alone). If the table is `pre ++ e :: post` where no link
of `pre` has the queried name, `e` has it, and the requested type is that of `e`, the result is
found with the slot holding the value of `e`, whatever `post` declares, links of the same name
included. If no link has the name, the result is not-found and the slot is unchanged. A link
`Assignable()` counts as the link named `ThisObject:<T>` of type `T` whose value is the
object. -/
theorem GetValueHelper_first_match_wins {σ : Type} (T BASE : String)
    (BASE_GetVoidValue : NameValuePairs Value) (searchFirst : Option (NameValuePairs σ))
    (entries : List GetValueEntry) (pObject : Nat) (object : Value) (name : String)
    (valueType : TypeInfo) (pValue : Value) (delegate : σ)
    (hn : name ≠ "ValueNames") (hp : name ≠ "ThisPointer:" ++ T)
    (hdel : ∀ g, searchFirst = some g →
      (g delegate name valueType pValue).ret = .returns false ∧
      (g delegate name valueType pValue).pValue = pValue)
    (hbase : T ≠ BASE →
      BASE_GetVoidValue object name valueType pValue = ⟨.returns false, pValue, object⟩) :
    (∀ pre e post, entries = pre ++ e :: post → (∀ x ∈ pre, x.name T ≠ name) →
      e.name T = name → e.type T = valueType →
      (GetValueHelper T BASE BASE_GetVoidValue searchFirst entries pObject object name
          valueType pValue delegate).ret = .returns true ∧
      (GetValueHelper T BASE BASE_GetVoidValue searchFirst entries pObject object name
          valueType pValue delegate).m_pValue = e.value object) ∧
    ((∀ x ∈ entries, x.name T ≠ name) →
      (GetValueHelper T BASE BASE_GetVoidValue searchFirst entries pObject object name
          valueType pValue delegate).ret = .returns false ∧
      (GetValueHelper T BASE BASE_GetVoidValue searchFirst entries pObject object name
          valueType pValue delegate).m_pValue = pValue) := by
  have hc := GetValueHelperClass_ctor_miss T BASE BASE_GetVoidValue searchFirst pObject object
    name valueType pValue delegate hn hp hdel hbase
  constructor
  · intro pre e post he hpre hname htype
    subst he
    unfold GetValueHelper
    rw [hc, List.foldl_append, GetValue_foldl_no_match T pre _ rfl rfl rfl hpre, List.foldl,
      (GetValueEntry_apply_pending T _ e rfl rfl rfl).2.1 hname htype,
      GetValue_foldl_found T post _ rfl rfl]
    exact ⟨rfl, rfl⟩
  · intro hall
    unfold GetValueHelper
    rw [hc, GetValue_foldl_no_match T entries _ rfl rfl rfl hall]
    exact ⟨rfl, rfl⟩

/-- C8, on the object `Obj [5, 6]` of a class that declares
`("b", GetMember1)("a", GetMember0)("a", GetMember1)`: the query `a` yields member 0, the
value of the first link named `a`. -/
theorem GetValueHelper_first_match_wins_witness :
    (GetValueHelper "Obj" "Obj" sampleBaseGetVoidValue (none : Option (NameValuePairs Unit))
        ([.named "b" .int (sampleGetMember 1)]
          ++ .named "a" .int (sampleGetMember 0) :: [.named "a" .int (sampleGetMember 1)])
        0 (.object "Obj" [5, 6]) "a" .int (.int 0) ()).ret = .returns true ∧
    (GetValueHelper "Obj" "Obj" sampleBaseGetVoidValue (none : Option (NameValuePairs Unit))
        ([.named "b" .int (sampleGetMember 1)]
          ++ .named "a" .int (sampleGetMember 0) :: [.named "a" .int (sampleGetMember 1)])
        0 (.object "Obj" [5, 6]) "a" .int (.int 0) ()).m_pValue = .int 5 :=
  (GetValueHelper_first_match_wins "Obj" "Obj" sampleBaseGetVoidValue
    (none : Option (NameValuePairs Unit))
    ([.named "b" .int (sampleGetMember 1)]
      ++ .named "a" .int (sampleGetMember 0) :: [.named "a" .int (sampleGetMember 1)])
    0 (.object "Obj" [5, 6]) "a" .int (.int 0) () (by decide) (by decide)
    (fun _ h => nomatch h) (fun h => absurd rfl h)).1
    [.named "b" .int (sampleGetMember 1)] (.named "a" .int (sampleGetMember 0))
    [.named "a" .int (sampleGetMember 1)] rfl (by simp [GetValueEntry.name]) rfl rfl

/-- C9: take an ordinary query as in C8, not resolved by the delegate or the base. If the table
is `pre ++ e :: post` where no link of `pre` has the queried name and `e` has it with a type
other than the requested one, the resolve throws `ValueTypeMismatch` for that name, stored type
and requested type; the slot is left unchanged, and no link of `post` changes this, one of the
same name and the requested type included. -/
theorem GetValueHelper_type_mismatch_is_fatal {σ : Type} (T BASE : String)
    (BASE_GetVoidValue : NameValuePairs Value) (searchFirst : Option (NameValuePairs σ))
    (pre : List GetValueEntry) (e : GetValueEntry) (post : List GetValueEntry)
    (pObject : Nat) (object : Value) (name : String)
    (valueType : TypeInfo) (pValue : Value) (delegate : σ)
    (hn : name ≠ "ValueNames") (hp : name ≠ "ThisPointer:" ++ T)
    (hdel : ∀ g, searchFirst = some g →
      (g delegate name valueType pValue).ret = .returns false ∧
      (g delegate name valueType pValue).pValue = pValue)
    (hbase : T ≠ BASE →
      BASE_GetVoidValue object name valueType pValue = ⟨.returns false, pValue, object⟩)
    (hpre : ∀ x ∈ pre, x.name T ≠ name) (hname : e.name T = name)
    (htype : e.type T ≠ valueType) :
    (GetValueHelper T BASE BASE_GetVoidValue searchFirst (pre ++ e :: post) pObject object name
        valueType pValue delegate).ret
      = .throws (.ValueTypeMismatch name (e.type T) valueType) ∧
    (GetValueHelper T BASE BASE_GetVoidValue searchFirst (pre ++ e :: post) pObject object name
        valueType pValue delegate).m_pValue = pValue := by
  have hc := GetValueHelperClass_ctor_miss T BASE BASE_GetVoidValue searchFirst pObject object
    name valueType pValue delegate hn hp hdel hbase
  unfold GetValueHelper
  rw [hc, List.foldl_append, GetValue_foldl_no_match T pre _ rfl rfl rfl hpre, List.foldl,
    (GetValueEntry_apply_pending T _ e rfl rfl rfl).2.2 hname htype,
    GetValue_foldl_thrown T post]
  · exact ⟨rfl, rfl⟩
  · rfl

/-- C9, on the object `Obj [5, 6]` of a class that declares
`("a", GetMember0)` of type `int` and then `("a", ...)` of type `std::string`: a request for
the string `a` throws, and the later link of the right type is not reached. -/
theorem GetValueHelper_type_mismatch_is_fatal_witness :
    (GetValueHelper "Obj" "Obj" sampleBaseGetVoidValue (none : Option (NameValuePairs Unit))
        ([] ++ .named "a" .int (sampleGetMember 0) :: [.named "a" .string (fun _ => .string "s")])
        0 (.object "Obj" [5, 6]) "a" .string (.string "") ()).ret
      = .throws (.ValueTypeMismatch "a" .int .string) ∧
    (GetValueHelper "Obj" "Obj" sampleBaseGetVoidValue (none : Option (NameValuePairs Unit))
        ([] ++ .named "a" .int (sampleGetMember 0) :: [.named "a" .string (fun _ => .string "s")])
        0 (.object "Obj" [5, 6]) "a" .string (.string "") ()).m_pValue = .string "" :=
  GetValueHelper_type_mismatch_is_fatal "Obj" "Obj" sampleBaseGetVoidValue
    (none : Option (NameValuePairs Unit)) [] (.named "a" .int (sampleGetMember 0))
    [.named "a" .string (fun _ => .string "s")] 0 (.object "Obj" [5, 6]) "a" .string
    (.string "") () (by decide) (by decide) (fun _ h => nomatch h) (fun h => absurd rfl h)
    (by simp) rfl (by decide)

/-- C10: for an ordinary query (not `"ValueNames"`, not `ThisPointer:<T>`) that the delegate
resolves, the helper ends, whatever the base class, its resolver and the declared links are,
with `m_found` set, the slot as the delegate left it, the object untouched and nothing thrown.
So the base-equivalent resolver and the links are neither consulted nor type-checked, and
the delegate's value overrides theirs. -/
theorem GetValueHelper_delegate_overrides {σ : Type} (T BASE : String)
    (BASE_GetVoidValue : NameValuePairs Value) (g : NameValuePairs σ)
    (entries : List GetValueEntry) (pObject : Nat) (object : Value) (name : String)
    (valueType : TypeInfo) (pValue : Value) (delegate : σ)
    (hn : name ≠ "ValueNames") (hp : name ≠ "ThisPointer:" ++ T)
    (hdel : (g delegate name valueType pValue).ret = .returns true) :
    GetValueHelper T BASE BASE_GetVoidValue (some g) entries pObject object name valueType
        pValue delegate
      = { m_pObject := pObject, object := object, m_name := name, m_valueType := valueType,
          m_pValue := (g delegate name valueType pValue).pValue, m_found := true,
          m_getValueNames := false,
          searchFirst := (g delegate name valueType pValue).self,
          thrown := none } ∧
    (GetValueHelper T BASE BASE_GetVoidValue (some g) entries pObject object name valueType
        pValue delegate).ret = .returns true := by
  have hk : ¬ (strncmpEq name "ThisPointer:" 12 && strcmpFromEq name 12 T) = true :=
    fun hc => hp ((reserved_name_test name "ThisPointer:" T 12 (by decide)).mp hc)
  simp only [Bool.and_eq_true] at hk
  have hc : GetValueHelperClass.ctor T BASE BASE_GetVoidValue (some g) pObject object name
      valueType pValue delegate
      = { m_pObject := pObject, object := object, m_name := name, m_valueType := valueType,
          m_pValue := (g delegate name valueType pValue).pValue, m_found := true,
          m_getValueNames := false,
          searchFirst := (g delegate name valueType pValue).self,
          thrown := none } := by
    unfold GetValueHelperClass.ctor
    simp [hn, hk, hdel]
  unfold GetValueHelper
  rw [hc, GetValue_foldl_found T entries _ rfl rfl]
  exact ⟨rfl, rfl⟩

/-- C10, on the object `Obj [5, 6]` of a class with base `Base` that declares
`("a", GetMember0)`, wrapped by a delegate `MakeParameters("a", 42)`: the query `a` yields the
delegate's 42, not member 0, and marks the delegate's binding used. -/
theorem GetValueHelper_delegate_overrides_witness :
    (GetValueHelper "Obj" "Base" sampleBaseGetVoidValue
        (some (AlgorithmParameters.GetVoidValue none))
        [.named "a" .int (sampleGetMember 0)] 0 (.object "Obj" [5, 6]) "a" .int (.int 0)
        (MakeParametersDefault "a" (.int 42)))
      = { m_pObject := 0, object := .object "Obj" [5, 6], m_name := "a", m_valueType := .int,
          m_pValue := .int 42, m_found := true, m_getValueNames := false,
          searchFirst := .node .g_nullNameValuePairs "a" (.int 42) true true,
          thrown := none } :=
  (GetValueHelper_delegate_overrides "Obj" "Base" sampleBaseGetVoidValue
    (AlgorithmParameters.GetVoidValue none) [.named "a" .int (sampleGetMember 0)] 0
    (.object "Obj" [5, 6]) "a" .int (.int 0) (MakeParametersDefault "a" (.int 42))
    (by decide) (by decide) (by decide)).1

/-! ## The accessor table: reserved names and the base fallback -/

/-- The constructor on a `"ValueNames"` query for text, with a delegate and a base that return:
`m_found` and `m_getValueNames` are set and the buffer holds what they left, then the marker
of this class. -/
theorem GetValueHelperClass_ctor_ValueNames {σ : Type} (T BASE : String)
    (BASE_GetVoidValue : NameValuePairs Value) (searchFirst : Option (NameValuePairs σ))
    (pObject : Nat) (object : Value) (delegate : σ) (s d bs : String)
    (hdel : ∀ g, searchFirst = some g →
      (∃ b, (g delegate "ValueNames" .string (.string s)).ret = .returns b) ∧
      (g delegate "ValueNames" .string (.string s)).pValue = .string (s ++ d))
    (hnodel : searchFirst = none → d = "")
    (hbase : T ≠ BASE →
      (∃ b, (BASE_GetVoidValue object "ValueNames" .string (.string (s ++ d))).ret
        = .returns b) ∧
      (BASE_GetVoidValue object "ValueNames" .string (.string (s ++ d))).pValue
        = .string (s ++ d ++ bs))
    (hnobase : T = BASE → bs = "") :
    ∃ object1 delegate1,
      GetValueHelperClass.ctor T BASE BASE_GetVoidValue searchFirst pObject object "ValueNames"
          .string (.string s) delegate
        = { m_pObject := pObject, object := object1, m_name := "ValueNames",
            m_valueType := .string,
            m_pValue := .string (s ++ d ++ bs ++ "ThisPointer:" ++ T ++ ";"),
            m_found := true, m_getValueNames := true, searchFirst := delegate1,
            thrown := none } := by
  have hcv : ∃ object1 delegate1,
      GetValueHelperClass.ctorValueNames T BASE BASE_GetVoidValue searchFirst
          { m_pObject := pObject, object := object, m_name := "ValueNames",
            m_valueType := .string, m_pValue := .string s, m_found := false,
            m_getValueNames := false, searchFirst := delegate, thrown := none }
        = { m_pObject := pObject, object := object1, m_name := "ValueNames",
            m_valueType := .string,
            m_pValue := .string (s ++ d ++ bs ++ "ThisPointer:" ++ T ++ ";"),
            m_found := true, m_getValueNames := true, searchFirst := delegate1,
            thrown := none } := by
    unfold GetValueHelperClass.ctorValueNames
    cases searchFirst with
    | none =>
      have hd := hnodel rfl
      subst hd
      by_cases hTB : T = BASE
      · have hb := hnobase hTB
        subst hb
        subst hTB
        exact ⟨object, delegate, by
          simp [ThrowIfTypeMismatch, appendString, String.append_assoc]⟩
      · obtain ⟨⟨b, hb1⟩, hb2⟩ := hbase hTB
        simp only [String.append_empty] at hb1 hb2
        exact ⟨(BASE_GetVoidValue object "ValueNames" .string (.string s)).self, delegate, by
          simp [ThrowIfTypeMismatch, appendString, String.append_assoc, hTB, hb1, hb2]⟩
    | some g =>
      obtain ⟨⟨b1, hg1⟩, hg2⟩ := hdel g rfl
      by_cases hTB : T = BASE
      · have hb := hnobase hTB
        subst hb
        subst hTB
        exact ⟨object, (g delegate "ValueNames" .string (.string s)).self, by
          simp [ThrowIfTypeMismatch, appendString, String.append_assoc, hg1, hg2]⟩
      · obtain ⟨⟨b, hb1⟩, hb2⟩ := hbase hTB
        exact ⟨(BASE_GetVoidValue object "ValueNames" .string (.string (s ++ d))).self,
          (g delegate "ValueNames" .string (.string s)).self, by
          simp [ThrowIfTypeMismatch, appendString, String.append_assoc, hTB, hg1, hg2, hb1,
            hb2]⟩
  obtain ⟨object1, delegate1, hcv⟩ := hcv
  refine ⟨object1, delegate1, ?_⟩
  unfold GetValueHelperClass.ctor
  simp only [if_pos rfl, hcv]
  cases searchFirst <;> simp

/-- A link on a helper that is listing names: it appends its name and `;` and does nothing
else. -/
theorem GetValueEntry_apply_listing {σ : Type} (T : String) (h : GetValueHelperClass σ)
    (x : GetValueEntry) (a : String) (ht : h.thrown = none) (hf : h.m_found = true)
    (hg : h.m_getValueNames = true) (hv : h.m_pValue = .string a) :
    x.apply T h = { h with m_pValue := .string (a ++ x.name T ++ ";") } := by
  obtain ⟨pObject, object, m_name, m_valueType, m_pValue, m_found, m_getValueNames, sf, thrown⟩
    := h
  simp only at ht hf hg hv
  subst ht hf hg hv
  cases x <;>
    simp [GetValueEntry.apply, GetValueHelperClass.named, GetValueHelperClass.Assignable,
      GetValueEntry.name, appendString, String.append_assoc]

theorem GetValue_foldl_listing {σ : Type} (T : String) (xs : List GetValueEntry)
    (h : GetValueHelperClass σ) (a : String) (ht : h.thrown = none) (hf : h.m_found = true)
    (hg : h.m_getValueNames = true) (hv : h.m_pValue = .string a) :
    xs.foldl (GetValueEntry.apply T) h
      = { h with m_pValue := .string (xs.foldl (fun acc x => acc ++ x.name T ++ ";") a) } := by
  induction xs generalizing h a with
  | nil => simp [hv.symm]
  | cons x xs ih =>
    rw [List.foldl, GetValueEntry_apply_listing T h x a ht hf hg hv]
    exact ih { h with m_pValue := .string (a ++ x.name T ++ ";") } (a ++ x.name T ++ ";")
      ht hf hg rfl

theorem names_foldl_extends (T : String) (xs : List GetValueEntry) (a : String) :
    ∃ tail, xs.foldl (fun acc x => acc ++ x.name T ++ ";") a = a ++ tail := by
  induction xs generalizing a with
  | nil => exact ⟨"", by simp⟩
  | cons x xs ih =>
    obtain ⟨tail, ht⟩ := ih (a ++ x.name T ++ ";")
    exact ⟨x.name T ++ ";" ++ tail, by rw [List.foldl, ht]; simp [String.append_assoc]⟩

theorem names_foldl_contains (T : String) (xs : List GetValueEntry) (a : String)
    (x : GetValueEntry) (hx : x ∈ xs) :
    ∃ before after,
      xs.foldl (fun acc x => acc ++ x.name T ++ ";") a = before ++ x.name T ++ ";" ++ after := by
  induction xs generalizing a with
  | nil => cases hx
  | cons y ys ih =>
    rcases List.mem_cons.mp hx with rfl | hmem
    · obtain ⟨tail, ht⟩ := names_foldl_extends T ys (a ++ x.name T ++ ";")
      exact ⟨a, tail, by rw [List.foldl, ht]⟩
    · exact ih (a ++ y.name T ++ ";") hmem

/-- C11: a `"ValueNames"` query for text on any accessor table, with a delegate (if present)
and a base-equivalent resolver (if `T` is not `BASE`) that return on that query, having
appended `d` and `bs` to the buffer: the resolve throws nothing and reports found, and the
buffer is its prior content `s`, then `d`, then `bs`, then `ThisPointer:<T>;`, then the name
of each link followed by `;` in declaration order, where the name of `Assignable()` is
`ThisObject:<T>`. The buffer depends on the names only, so no accessor is invoked; it contains
every declared name followed by `;`, and the marker of this level after those of the base. -/
theorem GetValueHelper_ValueNames_listing {σ : Type} (T BASE : String)
    (BASE_GetVoidValue : NameValuePairs Value) (searchFirst : Option (NameValuePairs σ))
    (entries : List GetValueEntry) (pObject : Nat) (object : Value) (delegate : σ)
    (s d bs : String)
    (hdel : ∀ g, searchFirst = some g →
      (∃ b, (g delegate "ValueNames" .string (.string s)).ret = .returns b) ∧
      (g delegate "ValueNames" .string (.string s)).pValue = .string (s ++ d))
    (hnodel : searchFirst = none → d = "")
    (hbase : T ≠ BASE →
      (∃ b, (BASE_GetVoidValue object "ValueNames" .string (.string (s ++ d))).ret
        = .returns b) ∧
      (BASE_GetVoidValue object "ValueNames" .string (.string (s ++ d))).pValue
        = .string (s ++ d ++ bs))
    (hnobase : T = BASE → bs = "") :
    (GetValueHelper T BASE BASE_GetVoidValue searchFirst entries pObject object "ValueNames"
        .string (.string s) delegate).ret = .returns true ∧
    (GetValueHelper T BASE BASE_GetVoidValue searchFirst entries pObject object "ValueNames"
        .string (.string s) delegate).m_pValue
      = .string (entries.foldl (fun acc x => acc ++ x.name T ++ ";")
          (s ++ d ++ bs ++ "ThisPointer:" ++ T ++ ";")) ∧
    (∀ entries2 : List GetValueEntry,
      entries2.map (GetValueEntry.name T) = entries.map (GetValueEntry.name T) →
      (GetValueHelper T BASE BASE_GetVoidValue searchFirst entries2 pObject object "ValueNames"
          .string (.string s) delegate).m_pValue
        = (GetValueHelper T BASE BASE_GetVoidValue searchFirst entries pObject object
            "ValueNames" .string (.string s) delegate).m_pValue) ∧
    (∀ x ∈ entries, ∃ before after,
      (GetValueHelper T BASE BASE_GetVoidValue searchFirst entries pObject object "ValueNames"
          .string (.string s) delegate).m_pValue
        = .string (before ++ x.name T ++ ";" ++ after)) ∧
    (∃ after,
      (GetValueHelper T BASE BASE_GetVoidValue searchFirst entries pObject object "ValueNames"
          .string (.string s) delegate).m_pValue
        = .string (s ++ d ++ bs ++ "ThisPointer:" ++ T ++ ";" ++ after)) := by
  obtain ⟨object1, delegate1, hc⟩ := GetValueHelperClass_ctor_ValueNames T BASE
    BASE_GetVoidValue searchFirst pObject object delegate s d bs hdel hnodel hbase hnobase
  have hrun : ∀ es : List GetValueEntry,
      GetValueHelper T BASE BASE_GetVoidValue searchFirst es pObject object "ValueNames"
          .string (.string s) delegate
        = { m_pObject := pObject, object := object1, m_name := "ValueNames",
            m_valueType := .string,
            m_pValue := .string (es.foldl (fun acc x => acc ++ x.name T ++ ";")
              (s ++ d ++ bs ++ "ThisPointer:" ++ T ++ ";")),
            m_found := true, m_getValueNames := true, searchFirst := delegate1,
            thrown := none } := by
    intro es
    unfold GetValueHelper
    rw [hc, GetValue_foldl_listing T es _ _ rfl rfl rfl rfl]
  have hmap : ∀ (es : List GetValueEntry) (a : String),
      es.foldl (fun acc x => acc ++ x.name T ++ ";") a
        = (es.map (GetValueEntry.name T)).foldl (fun acc n => acc ++ n ++ ";") a := by
    intro es a
    rw [List.foldl_map]
  refine ⟨?_, ?_, ?_, ?_, ?_⟩
  · rw [hrun]
    rfl
  · rw [hrun]
  · intro entries2 h2
    rw [hrun, hrun, hmap entries2, hmap entries, h2]
  · intro x hx
    obtain ⟨before, after, hba⟩ := names_foldl_contains T entries
      (s ++ d ++ bs ++ "ThisPointer:" ++ T ++ ";") x hx
    exact ⟨before, after, by rw [hrun, hba]⟩
  · obtain ⟨tail, htail⟩ := names_foldl_extends T entries
      (s ++ d ++ bs ++ "ThisPointer:" ++ T ++ ";")
    exact ⟨tail, by rw [hrun, htail]⟩

/-- C11, on a class `Derived` with base `Base`, where `Base` declares `("x", ...)`, `Derived`
declares `("a", ...)`, `Assignable()` and `("b", ...)`, and the delegate is
`MakeParameters("k", 1)`: the listing has the delegate's name, then one marker per level with
the names of that level. -/
theorem GetValueHelper_ValueNames_listing_witness :
    (GetValueHelper "Derived" "Base"
        (classGetVoidValue "Base" "Base" sampleBaseGetVoidValue
          [.named "x" .int (sampleGetMember 0)] 0)
        (some (AlgorithmParameters.GetVoidValue none))
        [.named "a" .int (sampleGetMember 0), .Assignable, .named "b" .int (sampleGetMember 1)]
        0 (.object "Derived" [5, 6]) "ValueNames" .string (.string "")
        (MakeParametersDefault "k" (.int 1))).m_pValue
      = .string "k;ThisPointer:Base;x;ThisPointer:Derived;a;ThisObject:Derived;b;" :=
  (GetValueHelper_ValueNames_listing "Derived" "Base"
    (classGetVoidValue "Base" "Base" sampleBaseGetVoidValue
      [.named "x" .int (sampleGetMember 0)] 0)
    (some (AlgorithmParameters.GetVoidValue none))
    [.named "a" .int (sampleGetMember 0), .Assignable, .named "b" .int (sampleGetMember 1)]
    0 (.object "Derived" [5, 6]) (MakeParametersDefault "k" (.int 1))
    "" "k;" "ThisPointer:Base;x;"
    (fun g hg => by cases hg; exact ⟨⟨true, by decide⟩, by decide⟩)
    (fun hg => nomatch hg)
    (fun _ => ⟨⟨true, by decide⟩, by decide⟩)
    (fun hTB => absurd hTB (by decide))).2.1

theorem ThisPointer_ne_ValueNames (T : String) : "ThisPointer:" ++ T ≠ "ValueNames" := by
  intro h
  have h2 := congrArg String.data h
  simp [String.data_append] at h2

theorem ThisObject_ne_ValueNames (T : String) : "ThisObject:" ++ T ≠ "ValueNames" := by
  intro h
  have h2 := congrArg String.data h
  simp [String.data_append] at h2

theorem ThisObject_ne_ThisPointer (T U : String) :
    "ThisObject:" ++ T ≠ "ThisPointer:" ++ U := by
  intro h
  have h2 := congrArg String.data h
  simp [String.data_append] at h2

theorem string_append_left_cancel (p a b : String) (h : p ++ a = p ++ b) : a = b := by
  have h2 := congrArg String.data h
  simp only [String.data_append, List.append_cancel_left_eq] at h2
  exact String.ext h2

/-- An ordinary query that the delegate resolves: the helper after the constructor and any
links. -/
theorem GetValueHelper_found_by_delegate {σ : Type} (T BASE : String)
    (BASE_GetVoidValue : NameValuePairs Value) (g : NameValuePairs σ)
    (entries : List GetValueEntry) (pObject : Nat) (object : Value) (name : String)
    (valueType : TypeInfo) (pValue : Value) (delegate : σ)
    (hn : name ≠ "ValueNames") (hp : name ≠ "ThisPointer:" ++ T)
    (hdel : (g delegate name valueType pValue).ret = .returns true) :
    GetValueHelper T BASE BASE_GetVoidValue (some g) entries pObject object name valueType
        pValue delegate
      = { m_pObject := pObject, object := object, m_name := name, m_valueType := valueType,
          m_pValue := (g delegate name valueType pValue).pValue, m_found := true,
          m_getValueNames := false,
          searchFirst := (g delegate name valueType pValue).self,
          thrown := none } := by
  have hk : ¬ (strncmpEq name "ThisPointer:" 12 && strcmpFromEq name 12 T) = true :=
    fun hc => hp ((reserved_name_test name "ThisPointer:" T 12 (by decide)).mp hc)
  simp only [Bool.and_eq_true] at hk
  have hc : GetValueHelperClass.ctor T BASE BASE_GetVoidValue (some g) pObject object name
      valueType pValue delegate
      = { m_pObject := pObject, object := object, m_name := name, m_valueType := valueType,
          m_pValue := (g delegate name valueType pValue).pValue, m_found := true,
          m_getValueNames := false,
          searchFirst := (g delegate name valueType pValue).self,
          thrown := none } := by
    unfold GetValueHelperClass.ctor
    simp [hn, hk, hdel]
  unfold GetValueHelper
  rw [hc, GetValue_foldl_found T entries _ rfl rfl]

/-- An ordinary query that the delegate, if any, does not resolve and the base-equivalent
resolver of a class with `T` other than `BASE` resolves: the helper after the constructor and
any links. -/
theorem GetValueHelper_found_by_base {σ : Type} (T BASE : String)
    (BASE_GetVoidValue : NameValuePairs Value) (searchFirst : Option (NameValuePairs σ))
    (entries : List GetValueEntry) (pObject : Nat) (object : Value) (name : String)
    (valueType : TypeInfo) (pValue : Value) (delegate : σ)
    (hn : name ≠ "ValueNames") (hp : name ≠ "ThisPointer:" ++ T) (hTB : T ≠ BASE)
    (hdel : ∀ g, searchFirst = some g →
      (g delegate name valueType pValue).ret = .returns false ∧
      (g delegate name valueType pValue).pValue = pValue)
    (hbase : (BASE_GetVoidValue object name valueType pValue).ret = .returns true) :
    GetValueHelper T BASE BASE_GetVoidValue searchFirst entries pObject object name valueType
        pValue delegate
      = { m_pObject := pObject,
          object := (BASE_GetVoidValue object name valueType pValue).self,
          m_name := name, m_valueType := valueType,
          m_pValue := (BASE_GetVoidValue object name valueType pValue).pValue,
          m_found := true, m_getValueNames := false,
          searchFirst := (match searchFirst with
            | some g => (g delegate name valueType pValue).self
            | none => delegate),
          thrown := none } := by
  have hk : ¬ (strncmpEq name "ThisPointer:" 12 && strcmpFromEq name 12 T) = true :=
    fun hc => hp ((reserved_name_test name "ThisPointer:" T 12 (by decide)).mp hc)
  simp only [Bool.and_eq_true] at hk
  have hc : GetValueHelperClass.ctor T BASE BASE_GetVoidValue searchFirst pObject object name
      valueType pValue delegate
      = { m_pObject := pObject,
          object := (BASE_GetVoidValue object name valueType pValue).self,
          m_name := name, m_valueType := valueType,
          m_pValue := (BASE_GetVoidValue object name valueType pValue).pValue,
          m_found := true, m_getValueNames := false,
          searchFirst := (match searchFirst with
            | some g => (g delegate name valueType pValue).self
            | none => delegate),
          thrown := none } := by
    unfold GetValueHelperClass.ctor
    cases searchFirst with
    | none => simp [hn, hk, hTB, hbase]
    | some g =>
      obtain ⟨h1, h2⟩ := hdel g rfl
      simp [hn, hk, hTB, h1, h2, hbase]
  unfold GetValueHelper
  rw [hc, GetValue_foldl_found T entries _ rfl rfl]

/-- An ordinary query that neither the delegate nor the base resolves, on a table
`pre ++ e :: post` whose first link of the queried name is `e`, of the requested type. -/
theorem GetValueHelper_found_by_entry {σ : Type} (T BASE : String)
    (BASE_GetVoidValue : NameValuePairs Value) (searchFirst : Option (NameValuePairs σ))
    (pre : List GetValueEntry) (e : GetValueEntry) (post : List GetValueEntry)
    (pObject : Nat) (object : Value) (name : String)
    (valueType : TypeInfo) (pValue : Value) (delegate : σ)
    (hn : name ≠ "ValueNames") (hp : name ≠ "ThisPointer:" ++ T)
    (hdel : ∀ g, searchFirst = some g →
      (g delegate name valueType pValue).ret = .returns false ∧
      (g delegate name valueType pValue).pValue = pValue)
    (hbase : T ≠ BASE →
      BASE_GetVoidValue object name valueType pValue = ⟨.returns false, pValue, object⟩)
    (hpre : ∀ x ∈ pre, x.name T ≠ name) (hname : e.name T = name)
    (htype : e.type T = valueType) :
    GetValueHelper T BASE BASE_GetVoidValue searchFirst (pre ++ e :: post) pObject object name
        valueType pValue delegate
      = { m_pObject := pObject, object := object, m_name := name, m_valueType := valueType,
          m_pValue := e.value object, m_found := true, m_getValueNames := false,
          searchFirst := (match searchFirst with
            | some g => (g delegate name valueType pValue).self
            | none => delegate),
          thrown := none } := by
  have hc := GetValueHelperClass_ctor_miss T BASE BASE_GetVoidValue searchFirst pObject object
    name valueType pValue delegate hn hp hdel hbase
  unfold GetValueHelper
  rw [hc, List.foldl_append, GetValue_foldl_no_match T pre _ rfl rfl rfl hpre, List.foldl,
    (GetValueEntry_apply_pending T _ e rfl rfl rfl).2.1 hname htype,
    GetValue_foldl_found T post _ rfl rfl]

/-- An ordinary query that neither the delegate nor the base resolves, on a table without a
link of the queried name. -/
theorem GetValueHelper_not_found {σ : Type} (T BASE : String)
    (BASE_GetVoidValue : NameValuePairs Value) (searchFirst : Option (NameValuePairs σ))
    (entries : List GetValueEntry) (pObject : Nat) (object : Value) (name : String)
    (valueType : TypeInfo) (pValue : Value) (delegate : σ)
    (hn : name ≠ "ValueNames") (hp : name ≠ "ThisPointer:" ++ T)
    (hdel : ∀ g, searchFirst = some g →
      (g delegate name valueType pValue).ret = .returns false ∧
      (g delegate name valueType pValue).pValue = pValue)
    (hbase : T ≠ BASE →
      BASE_GetVoidValue object name valueType pValue = ⟨.returns false, pValue, object⟩)
    (hall : ∀ x ∈ entries, x.name T ≠ name) :
    GetValueHelper T BASE BASE_GetVoidValue searchFirst entries pObject object name
        valueType pValue delegate
      = { m_pObject := pObject, object := object, m_name := name, m_valueType := valueType,
          m_pValue := pValue, m_found := false, m_getValueNames := false,
          searchFirst := (match searchFirst with
            | some g => (g delegate name valueType pValue).self
            | none => delegate),
          thrown := none } := by
  have hc := GetValueHelperClass_ctor_miss T BASE BASE_GetVoidValue searchFirst pObject object
    name valueType pValue delegate hn hp hdel hbase
  unfold GetValueHelper
  rw [hc, GetValue_foldl_no_match T entries _ rfl rfl rfl hall]

/-- C12: on the query `ThisPointer:<T>` for the class's own `T`, whatever the delegate, the
base class, its resolver and the declared links are: with requested type `T *` the helper ends
with `m_found` set and the slot holding the address of the object, the delegate and the object
in the state they had (they were not consulted); with any other requested type it throws
`ValueTypeMismatch` and leaves the slot alone. A query `ThisPointer:<tag>` with another tag is
dispatched as an ordinary name: the delegate's value if the delegate resolves it, else the
base's if `T` is not `BASE` and the base resolves it, else the first declared link of that
name, else not-found. -/
theorem GetValueHelper_ThisPointer {σ : Type} (T BASE : String)
    (BASE_GetVoidValue : NameValuePairs Value) (searchFirst : Option (NameValuePairs σ))
    (entries : List GetValueEntry) (pObject : Nat) (object : Value) (valueType : TypeInfo)
    (pValue : Value) (delegate : σ) :
    (valueType = .pointer T →
      GetValueHelper T BASE BASE_GetVoidValue searchFirst entries pObject object
          ("ThisPointer:" ++ T) valueType pValue delegate
        = { m_pObject := pObject, object := object, m_name := "ThisPointer:" ++ T,
            m_valueType := valueType, m_pValue := .pointer T pObject, m_found := true,
            m_getValueNames := false, searchFirst := delegate, thrown := none }) ∧
    (valueType ≠ .pointer T →
      GetValueHelper T BASE BASE_GetVoidValue searchFirst entries pObject object
          ("ThisPointer:" ++ T) valueType pValue delegate
        = { m_pObject := pObject, object := object, m_name := "ThisPointer:" ++ T,
            m_valueType := valueType, m_pValue := pValue, m_found := false,
            m_getValueNames := false, searchFirst := delegate,
            thrown := some (.ValueTypeMismatch ("ThisPointer:" ++ T) (.pointer T)
              valueType) }) ∧
    (∀ tag : String, tag ≠ T →
      (∀ g, searchFirst = some g →
        (g delegate ("ThisPointer:" ++ tag) valueType pValue).ret = .returns true →
        (GetValueHelper T BASE BASE_GetVoidValue searchFirst entries pObject object
            ("ThisPointer:" ++ tag) valueType pValue delegate).ret = .returns true ∧
        (GetValueHelper T BASE BASE_GetVoidValue searchFirst entries pObject object
            ("ThisPointer:" ++ tag) valueType pValue delegate).m_pValue
          = (g delegate ("ThisPointer:" ++ tag) valueType pValue).pValue) ∧
      ((∀ g, searchFirst = some g →
          (g delegate ("ThisPointer:" ++ tag) valueType pValue).ret = .returns false ∧
          (g delegate ("ThisPointer:" ++ tag) valueType pValue).pValue = pValue) →
        (T ≠ BASE →
          (BASE_GetVoidValue object ("ThisPointer:" ++ tag) valueType pValue).ret
            = .returns true →
          (GetValueHelper T BASE BASE_GetVoidValue searchFirst entries pObject object
              ("ThisPointer:" ++ tag) valueType pValue delegate).ret = .returns true ∧
          (GetValueHelper T BASE BASE_GetVoidValue searchFirst entries pObject object
              ("ThisPointer:" ++ tag) valueType pValue delegate).m_pValue
            = (BASE_GetVoidValue object ("ThisPointer:" ++ tag) valueType pValue).pValue) ∧
        ((T ≠ BASE →
            BASE_GetVoidValue object ("ThisPointer:" ++ tag) valueType pValue
              = ⟨.returns false, pValue, object⟩) →
          (∀ pre e post, entries = pre ++ e :: post →
            (∀ x ∈ pre, x.name T ≠ "ThisPointer:" ++ tag) →
            e.name T = "ThisPointer:" ++ tag → e.type T = valueType →
            (GetValueHelper T BASE BASE_GetVoidValue searchFirst entries pObject object
                ("ThisPointer:" ++ tag) valueType pValue delegate).ret = .returns true ∧
            (GetValueHelper T BASE BASE_GetVoidValue searchFirst entries pObject object
                ("ThisPointer:" ++ tag) valueType pValue delegate).m_pValue
              = e.value object) ∧
          ((∀ x ∈ entries, x.name T ≠ "ThisPointer:" ++ tag) →
            (GetValueHelper T BASE BASE_GetVoidValue searchFirst entries pObject object
                ("ThisPointer:" ++ tag) valueType pValue delegate).ret = .returns false ∧
            (GetValueHelper T BASE BASE_GetVoidValue searchFirst entries pObject object
                ("ThisPointer:" ++ tag) valueType pValue delegate).m_pValue = pValue)))) := by
  have hk := (reserved_name_test ("ThisPointer:" ++ T) "ThisPointer:" T 12 (by decide)).mpr rfl
  simp only [Bool.and_eq_true] at hk
  have hvn := ThisPointer_ne_ValueNames T
  refine ⟨?_, ?_, ?_⟩
  · intro hty
    have hc : GetValueHelperClass.ctor T BASE BASE_GetVoidValue searchFirst pObject object
        ("ThisPointer:" ++ T) valueType pValue delegate
        = { m_pObject := pObject, object := object, m_name := "ThisPointer:" ++ T,
            m_valueType := valueType, m_pValue := .pointer T pObject, m_found := true,
            m_getValueNames := false, searchFirst := delegate, thrown := none } := by
      unfold GetValueHelperClass.ctor
      simp [hvn, hk, hty, ThrowIfTypeMismatch]
    unfold GetValueHelper
    rw [hc, GetValue_foldl_found T entries _ rfl rfl]
  · intro hty
    have hty2 : ¬ TypeInfo.pointer T = valueType := fun h => hty h.symm
    have hc : GetValueHelperClass.ctor T BASE BASE_GetVoidValue searchFirst pObject object
        ("ThisPointer:" ++ T) valueType pValue delegate
        = { m_pObject := pObject, object := object, m_name := "ThisPointer:" ++ T,
            m_valueType := valueType, m_pValue := pValue, m_found := false,
            m_getValueNames := false, searchFirst := delegate,
            thrown := some (.ValueTypeMismatch ("ThisPointer:" ++ T) (.pointer T)
              valueType) } := by
      unfold GetValueHelperClass.ctor
      simp [hvn, hk, hty2, ThrowIfTypeMismatch]
    unfold GetValueHelper
    rw [hc, GetValue_foldl_thrown T entries]
    rfl
  · intro tag htag
    have hn := ThisPointer_ne_ValueNames tag
    have hp : "ThisPointer:" ++ tag ≠ "ThisPointer:" ++ T :=
      fun h => htag (string_append_left_cancel _ _ _ h)
    refine ⟨?_, ?_⟩
    · intro g hg hdel
      subst hg
      rw [GetValueHelper_found_by_delegate T BASE BASE_GetVoidValue g entries pObject object
        _ valueType pValue delegate hn hp hdel]
      exact ⟨rfl, rfl⟩
    · intro hdel
      refine ⟨?_, ?_⟩
      · intro hTB hbase
        rw [GetValueHelper_found_by_base T BASE BASE_GetVoidValue searchFirst entries pObject
          object _ valueType pValue delegate hn hp hTB hdel hbase]
        exact ⟨rfl, rfl⟩
      · intro hbase
        refine ⟨?_, ?_⟩
        · intro pre e post he hpre hname htype
          subst he
          rw [GetValueHelper_found_by_entry T BASE BASE_GetVoidValue searchFirst pre e post
            pObject object _ valueType pValue delegate hn hp hdel hbase hpre hname htype]
          exact ⟨rfl, rfl⟩
        · intro hall
          rw [GetValueHelper_not_found T BASE BASE_GetVoidValue searchFirst entries pObject
            object _ valueType pValue delegate hn hp hdel hbase hall]
          exact ⟨rfl, rfl⟩

/-- C12, on the object at address 7 of a class `Obj` with base `Base`, a link named
`ThisPointer:Obj` and a delegate that binds `ThisPointer:Obj`: the query yields the address 7
and the delegate's binding stays unused; a request for `int` throws. -/
theorem GetValueHelper_ThisPointer_witness :
    GetValueHelper "Obj" "Base" sampleBaseGetVoidValue
        (some (AlgorithmParameters.GetVoidValue none))
        [.named "ThisPointer:Obj" (.pointer "Obj") (fun _ => .pointer "Obj" 99)]
        7 (.object "Obj" [5, 6]) ("ThisPointer:" ++ "Obj") (.pointer "Obj") (.pointer "Obj" 0)
        (MakeParametersDefault "ThisPointer:Obj" (.pointer "Obj" 1))
      = { m_pObject := 7, object := .object "Obj" [5, 6], m_name := "ThisPointer:" ++ "Obj",
          m_valueType := .pointer "Obj", m_pValue := .pointer "Obj" 7, m_found := true,
          m_getValueNames := false,
          searchFirst := MakeParametersDefault "ThisPointer:Obj" (.pointer "Obj" 1),
          thrown := none } ∧
    (GetValueHelper "Obj" "Base" sampleBaseGetVoidValue
        (some (AlgorithmParameters.GetVoidValue none))
        [.named "ThisPointer:Obj" (.pointer "Obj") (fun _ => .pointer "Obj" 99)]
        7 (.object "Obj" [5, 6]) ("ThisPointer:" ++ "Obj") .int (.int 0)
        (MakeParametersDefault "ThisPointer:Obj" (.pointer "Obj" 1))).thrown
      = some (.ValueTypeMismatch ("ThisPointer:" ++ "Obj") (.pointer "Obj") .int) :=
  ⟨(GetValueHelper_ThisPointer "Obj" "Base" sampleBaseGetVoidValue
      (some (AlgorithmParameters.GetVoidValue none))
      [.named "ThisPointer:Obj" (.pointer "Obj") (fun _ => .pointer "Obj" 99)]
      7 (.object "Obj" [5, 6]) (.pointer "Obj") (.pointer "Obj" 0)
      (MakeParametersDefault "ThisPointer:Obj" (.pointer "Obj" 1))).1 rfl,
   congrArg GetValueHelperClass.thrown
    ((GetValueHelper_ThisPointer "Obj" "Base" sampleBaseGetVoidValue
      (some (AlgorithmParameters.GetVoidValue none))
      [.named "ThisPointer:Obj" (.pointer "Obj") (fun _ => .pointer "Obj" 99)]
      7 (.object "Obj" [5, 6]) .int (.int 0)
      (MakeParametersDefault "ThisPointer:Obj" (.pointer "Obj" 1))).2.1 (by decide))⟩

/-- C13: (a) in a table that declares `Assignable()`, with no link before it named
`ThisObject:<T>`, the query `ThisObject:<T>` for type `T` that neither the delegate nor the
base resolves returns found with the slot holding the object, member for member. (b) Hence
`AssignFromHelper` on a target of class `T`, with such an object as the source (its
`GetVoidValue` built on the helper), ends with the target equal to the source object, the
source unchanged, `m_done` set and nothing thrown, whatever the mutator table declares. (c) A
query `ThisObject:<tag>` that is not resolved by the delegate or the base and that no named
link answers is not-found, the slot unchanged, when the table declares no `Assignable()` or
when the tag is not `T`. -/
theorem Assignable_whole_object_copy {σ : Type} (T BASE : String)
    (BASE_GetVoidValue : NameValuePairs Value) (searchFirst : Option (NameValuePairs σ))
    (pObject : Nat) (object : Value) (delegate : σ) :
    (∀ (pre post : List GetValueEntry) (pValue : Value),
      (∀ g, searchFirst = some g →
        (g delegate ("ThisObject:" ++ T) (.object T) pValue).ret = .returns false ∧
        (g delegate ("ThisObject:" ++ T) (.object T) pValue).pValue = pValue) →
      (T ≠ BASE → BASE_GetVoidValue object ("ThisObject:" ++ T) (.object T) pValue
        = ⟨.returns false, pValue, object⟩) →
      (∀ x ∈ pre, x.name T ≠ "ThisObject:" ++ T) →
      (GetValueHelper T BASE BASE_GetVoidValue searchFirst (pre ++ .Assignable :: post) pObject
          object ("ThisObject:" ++ T) (.object T) pValue delegate).ret = .returns true ∧
      (GetValueHelper T BASE BASE_GetVoidValue searchFirst (pre ++ .Assignable :: post) pObject
          object ("ThisObject:" ++ T) (.object T) pValue delegate).m_pValue = object) ∧
    (∀ (pre post : List GetValueEntry) (target : Value) (BASE2 : String)
      (BASE_AssignFrom : Value → Value → AssignResult Value) (mutators : List AssignFromEntry),
      (T ≠ BASE → BASE_GetVoidValue object ("ThisObject:" ++ T) (.object T) target
        = ⟨.returns false, target, object⟩) →
      (∀ x ∈ pre, x.name T ≠ "ThisObject:" ++ T) →
      AssignFromHelper T BASE2
          (classGetVoidValue T BASE BASE_GetVoidValue (pre ++ .Assignable :: post) pObject)
          BASE_AssignFrom mutators target object
        = { m_pObject := object, m_source := object, m_done := true, thrown := none }) ∧
    (∀ (tag : String) (entries : List GetValueEntry) (valueType : TypeInfo) (pValue : Value),
      (∀ g, searchFirst = some g →
        (g delegate ("ThisObject:" ++ tag) valueType pValue).ret = .returns false ∧
        (g delegate ("ThisObject:" ++ tag) valueType pValue).pValue = pValue) →
      (T ≠ BASE → BASE_GetVoidValue object ("ThisObject:" ++ tag) valueType pValue
        = ⟨.returns false, pValue, object⟩) →
      (∀ n R pm, GetValueEntry.named n R pm ∈ entries → n ≠ "ThisObject:" ++ tag) →
      (tag ≠ T ∨ GetValueEntry.Assignable ∉ entries) →
      (GetValueHelper T BASE BASE_GetVoidValue searchFirst entries pObject object
          ("ThisObject:" ++ tag) valueType pValue delegate).ret = .returns false ∧
      (GetValueHelper T BASE BASE_GetVoidValue searchFirst entries pObject object
          ("ThisObject:" ++ tag) valueType pValue delegate).m_pValue = pValue) := by
  refine ⟨?_, ?_, ?_⟩
  · intro pre post pValue hdel hbase hpre
    rw [GetValueHelper_found_by_entry T BASE BASE_GetVoidValue searchFirst pre .Assignable post
      pObject object _ (.object T) pValue delegate (ThisObject_ne_ValueNames T)
      (ThisObject_ne_ThisPointer T T) hdel hbase hpre rfl rfl]
    exact ⟨rfl, rfl⟩
  · intro pre post target BASE2 BASE_AssignFrom mutators hbase hpre
    have hq : classGetVoidValue T BASE BASE_GetVoidValue (pre ++ .Assignable :: post) pObject
        object ("ThisObject:" ++ T) (.object T) target = ⟨.returns true, object, object⟩ := by
      unfold classGetVoidValue
      rw [GetValueHelper_found_by_entry T BASE BASE_GetVoidValue
        (none : Option (NameValuePairs Unit)) pre .Assignable post
        pObject object _ (.object T) target () (ThisObject_ne_ValueNames T)
        (ThisObject_ne_ThisPointer T T) (fun _ h => nomatch h) hbase hpre rfl rfl]
      rfl
    have hc : AssignFromHelperClass.ctor T BASE2
        (classGetVoidValue T BASE BASE_GetVoidValue (pre ++ .Assignable :: post) pObject)
        BASE_AssignFrom target object
        = { m_pObject := object, m_source := object, m_done := true, thrown := none } := by
      simp [AssignFromHelperClass.ctor, GetThisObject, GetValue, hq]
    unfold AssignFromHelper
    rw [hc]
    exact AssignFrom_foldl_done T _ mutators _ rfl
  · intro tag entries valueType pValue hdel hbase hnamed hor
    have hall : ∀ x ∈ entries, x.name T ≠ "ThisObject:" ++ tag := by
      intro x hx
      cases x with
      | named n R pm => exact hnamed n R pm hx
      | Assignable =>
        rcases hor with htag | hno
        · exact fun h => htag (string_append_left_cancel _ _ _ h).symm
        · exact absurd hx hno
    rw [GetValueHelper_not_found T BASE BASE_GetVoidValue searchFirst entries pObject object
      _ valueType pValue delegate (ThisObject_ne_ValueNames tag)
      (ThisObject_ne_ThisPointer tag T) hdel hbase hall]
    exact ⟨rfl, rfl⟩

/-- C13, with the object `Obj [3, 4]` of a class that declares `("a", GetMember0)` and
`Assignable()` as the source: the target `Obj [0, 0]` becomes `Obj [3, 4]` and the declared
mutator for `a` does not run. -/
theorem Assignable_whole_object_copy_witness :
    AssignFromHelper "Obj" "Obj"
        (classGetVoidValue "Obj" "Obj" sampleBaseGetVoidValue
          ([.named "a" .int (sampleGetMember 0)] ++ .Assignable :: []) 0)
        sampleBaseAssignFrom [.one "a" .int (sampleSetMember 1)]
        (.object "Obj" [0, 0]) (.object "Obj" [3, 4])
      = { m_pObject := .object "Obj" [3, 4], m_source := .object "Obj" [3, 4],
          m_done := true, thrown := none } :=
  (Assignable_whole_object_copy "Obj" "Obj" sampleBaseGetVoidValue
    (none : Option (NameValuePairs Unit)) 0 (.object "Obj" [3, 4]) ()).2.1
    [.named "a" .int (sampleGetMember 0)] [] (.object "Obj" [0, 0]) "Obj"
    sampleBaseAssignFrom [.one "a" .int (sampleSetMember 1)]
    (fun h => absurd rfl h) (by simp [GetValueEntry.name])

/-! ## The combined catalog -/

/-- C14: for catalogs `A` and `B` and an ordinary name `k`: when `A` resolves `k` the combined
catalog returns found with the slot as `A` left it, whatever `B` is, and `B` keeps its state
(it is not consulted); when `A` returns not-found the result is that of `B`, asked next; and
the combined catalog returns not-found exactly when `A` and then `B` return not-found. -/
theorem CombinedNameValuePairs_first_then_second {σ τ : Type} (A : NameValuePairs σ)
    (B : NameValuePairs τ) (a : σ) (b : τ) (k : String) (valueType : TypeInfo)
    (pValue : Value) (hk : k ≠ "ValueNames") :
    ((A a k valueType pValue).ret = .returns true →
      ∀ B2 : NameValuePairs τ,
        CombinedNameValuePairs.GetVoidValue A B2 (a, b) k valueType pValue
          = ⟨.returns true, (A a k valueType pValue).pValue,
             ((A a k valueType pValue).self, b)⟩) ∧
    ((A a k valueType pValue).ret = .returns false →
      CombinedNameValuePairs.GetVoidValue A B (a, b) k valueType pValue
        = ⟨(B b k valueType (A a k valueType pValue).pValue).ret,
           (B b k valueType (A a k valueType pValue).pValue).pValue,
           ((A a k valueType pValue).self,
            (B b k valueType (A a k valueType pValue).pValue).self)⟩) ∧
    ((CombinedNameValuePairs.GetVoidValue A B (a, b) k valueType pValue).ret = .returns false
      ↔ ((A a k valueType pValue).ret = .returns false ∧
         (B b k valueType (A a k valueType pValue).pValue).ret = .returns false)) := by
  refine ⟨?_, ?_, ?_⟩
  · intro hA B2
    simp [CombinedNameValuePairs.GetVoidValue, hk, hA]
  · intro hA
    simp [CombinedNameValuePairs.GetVoidValue, hk, hA]
  · rcases hA : (A a k valueType pValue).ret with (_ | _) | e <;>
      simp [CombinedNameValuePairs.GetVoidValue, hk, hA]

/-- C14, with `A = MakeParameters("k", 1)` and `B = MakeParameters("k", 2)("j", 3)`: `k`
resolves to `A`'s 1 and leaves `B` untouched, `j` resolves to `B`'s 3, and `z` is not found. -/
theorem CombinedNameValuePairs_first_then_second_witness :
    CombinedNameValuePairs.GetVoidValue (AlgorithmParameters.GetVoidValue none)
        (AlgorithmParameters.GetVoidValue none)
        (MakeParametersDefault "k" (.int 1), chain "k" (.int 2) true [⟨"j", .int 3, none⟩])
        "k" .int (.int 0)
      = ⟨.returns true, .int 1,
         (.node .g_nullNameValuePairs "k" (.int 1) true true,
          chain "k" (.int 2) true [⟨"j", .int 3, none⟩])⟩ ∧
    (CombinedNameValuePairs.GetVoidValue (AlgorithmParameters.GetVoidValue none)
        (AlgorithmParameters.GetVoidValue none)
        (MakeParametersDefault "k" (.int 1), chain "k" (.int 2) true [⟨"j", .int 3, none⟩])
        "j" .int (.int 0)).pValue = .int 3 ∧
    (CombinedNameValuePairs.GetVoidValue (AlgorithmParameters.GetVoidValue none)
        (AlgorithmParameters.GetVoidValue none)
        (MakeParametersDefault "k" (.int 1), chain "k" (.int 2) true [⟨"j", .int 3, none⟩])
        "z" .int (.int 0)).ret = .returns false :=
  ⟨(CombinedNameValuePairs_first_then_second (AlgorithmParameters.GetVoidValue none)
      (AlgorithmParameters.GetVoidValue none) (MakeParametersDefault "k" (.int 1))
      (chain "k" (.int 2) true [⟨"j", .int 3, none⟩]) "k" .int (.int 0) (by decide)).1
      (by decide) (AlgorithmParameters.GetVoidValue none),
   congrArg GetResult.pValue
    ((CombinedNameValuePairs_first_then_second (AlgorithmParameters.GetVoidValue none)
      (AlgorithmParameters.GetVoidValue none) (MakeParametersDefault "k" (.int 1))
      (chain "k" (.int 2) true [⟨"j", .int 3, none⟩]) "j" .int (.int 0) (by decide)).2.1
      (by decide)),
   (CombinedNameValuePairs_first_then_second (AlgorithmParameters.GetVoidValue none)
      (AlgorithmParameters.GetVoidValue none) (MakeParametersDefault "k" (.int 1))
      (chain "k" (.int 2) true [⟨"j", .int 3, none⟩]) "z" .int (.int 0) (by decide)).2.2.mpr
      ⟨by decide, by decide⟩⟩

/-! ## The parameter chain: the used flags -/

theorem GetVoidValue_ValueNames_self (hook : Option IntToIntegerHook) (valueType : TypeInfo)
    (c : AlgorithmParameters) (pValue : Value) :
    (AlgorithmParameters.GetVoidValue hook c "ValueNames" valueType pValue).self = c := by
  induction c generalizing pValue with
  | g_nullNameValuePairs => rfl
  | node p n v t u ih =>
    unfold AlgorithmParameters.GetVoidValue
    rw [if_pos rfl]
    cases ThrowIfTypeMismatch "ValueNames" .string valueType with
    | some e => rfl
    | none =>
      simp only
      cases hr : (AlgorithmParameters.GetVoidValue hook p "ValueNames" valueType pValue).ret
        <;> simp [ih pValue]

theorem GetVoidValue_wrap_self (hook : Option IntToIntegerHook) (name : String)
    (valueType : TypeInfo) (pValue : Value) (hn : name ≠ "ValueNames")
    (inner : AlgorithmParameters) (outer : List (String × Value × Bool × Bool))
    (ho : ∀ b ∈ outer, b.1 ≠ name) :
    (AlgorithmParameters.GetVoidValue hook (inner.wrap outer) name valueType pValue).self
      = (AlgorithmParameters.GetVoidValue hook inner name valueType pValue).self.wrap outer := by
  induction outer with
  | nil => simp [AlgorithmParameters.wrap]
  | cons b rest ih =>
    obtain ⟨n, v, t, u⟩ := b
    have hne : name ≠ n := fun h => ho (n, v, t, u) (by simp) h.symm
    have ih2 := ih (fun b hb => ho b (by simp [hb]))
    simp only [AlgorithmParameters.wrap]
    rw [GetVoidValue_node_other hook _ n v t u name valueType pValue hn hne, ih2]

/-- A chain that binds a name is some nodes of other names around the outermost node of that
name. -/
theorem bound_name_decomposes (name : String) (c : AlgorithmParameters)
    (hb : ∃ b ∈ c.bindings, b.1 = name) :
    ∃ outer p v t u, c = (AlgorithmParameters.node p name v t u).wrap outer ∧
      ∀ b ∈ outer, b.1 ≠ name := by
  induction c with
  | g_nullNameValuePairs =>
    obtain ⟨b, hmem, _⟩ := hb
    simp [AlgorithmParameters.bindings] at hmem
  | node p n v t u ih =>
    by_cases hn : n = name
    · subst hn
      exact ⟨[], p, v, t, u, rfl, by simp⟩
    · obtain ⟨b, hmem, hbn⟩ := hb
      simp only [AlgorithmParameters.bindings, List.mem_cons] at hmem
      rcases hmem with rfl | hmem
      · exact absurd hbn hn
      · obtain ⟨outer, p2, v2, t2, u2, hc, ho⟩ := ih ⟨b, hmem, hbn⟩
        refine ⟨(n, v, t, u) :: outer, p2, v2, t2, u2, ?_, ?_⟩
        · simp [AlgorithmParameters.wrap, hc]
        · intro x hx
          rcases List.mem_cons.mp hx with rfl | hx
          · exact hn
          · exact ho x hx

theorem find_none_of_unbound (name : String) (c : AlgorithmParameters)
    (hall : ∀ b ∈ c.bindings, b.1 ≠ name) :
    c.bindings.find? (fun b => decide (b.1 = name)) = none := by
  rw [List.find?_eq_none]
  intro b hb
  simpa using hall b hb

/-- C15: a resolve through a chain, for any requested type and slot, leaves the chain with all
its used flags as it was (1) on a `"ValueNames"` query and (2) on a query for a name that no
node binds, a `ThisPointer:<tag>` name in particular. (3) When the outermost node of the
queried name is `node` below the nodes `outer`, the chain afterwards differs from the chain
before in nothing but `m_used = true` of that node if the resolve returned found, and in
nothing at all if it threw. (4) Every chain that binds the name has this shape, so no other
flag is ever changed. -/
theorem resolve_marks_only_the_answering_node (hook : Option IntToIntegerHook)
    (c : AlgorithmParameters) (valueType : TypeInfo) (pValue : Value) :
    (AlgorithmParameters.GetVoidValue hook c "ValueNames" valueType pValue).self = c ∧
    (∀ name : String, name ≠ "ValueNames" → (∀ b ∈ c.bindings, b.1 ≠ name) →
      (AlgorithmParameters.GetVoidValue hook c name valueType pValue).self = c) ∧
    (∀ tag : String, (∀ b ∈ c.bindings, b.1 ≠ "ThisPointer:" ++ tag) →
      (AlgorithmParameters.GetVoidValue hook c ("ThisPointer:" ++ tag) valueType pValue).self
        = c) ∧
    (∀ outer p n v t u, c = (AlgorithmParameters.node p n v t u).wrap outer →
      n ≠ "ValueNames" → (∀ b ∈ outer, b.1 ≠ n) →
      ((AlgorithmParameters.GetVoidValue hook c n valueType pValue).ret = .returns true →
        (AlgorithmParameters.GetVoidValue hook c n valueType pValue).self
          = (AlgorithmParameters.node p n v t true).wrap outer) ∧
      (∀ e, (AlgorithmParameters.GetVoidValue hook c n valueType pValue).ret = .throws e →
        (AlgorithmParameters.GetVoidValue hook c n valueType pValue).self = c)) ∧
    (∀ name : String, (∃ b ∈ c.bindings, b.1 = name) →
      ∃ outer p v t u, c = (AlgorithmParameters.node p name v t u).wrap outer ∧
        ∀ b ∈ outer, b.1 ≠ name) := by
  refine ⟨GetVoidValue_ValueNames_self hook valueType c pValue, ?_, ?_, ?_, ?_⟩
  · intro name hn hall
    rw [(GetVoidValue_find hook name valueType pValue hn c).1 (find_none_of_unbound name c hall)]
  · intro tag hall
    rw [(GetVoidValue_find hook _ valueType pValue (ThisPointer_ne_ValueNames tag) c).1
      (find_none_of_unbound _ c hall)]
  · intro outer p n v t u hc hn ho
    subst hc
    have hw := GetVoidValue_wrap hook n valueType pValue hn (.node p n v t u) outer ho
    rw [hw.1, GetVoidValue_wrap_self hook n valueType pValue hn _ outer ho,
      GetVoidValue_node_self_eq hook p n v t u valueType pValue hn]
    rcases hA : AssignValue hook v n valueType pValue with ⟨_ | e, pv1⟩ <;> simp
  · intro name hb
    exact bound_name_decomposes name c hb

/-- C15, on `MakeParameters("a", 1)("b", "x")`: a well-typed query for `a` sets the used flag
of `a` only, and a query for `a` as text throws and leaves the chain as it was. -/
theorem resolve_marks_only_the_answering_node_witness :
    (AlgorithmParameters.GetVoidValue none
        ((AlgorithmParameters.node .g_nullNameValuePairs "a" (.int 1) true false).wrap
          [("b", Value.string "x", true, false)]) "a" .int (.int 0)).self
      = (AlgorithmParameters.node .g_nullNameValuePairs "a" (.int 1) true true).wrap
          [("b", Value.string "x", true, false)] ∧
    (AlgorithmParameters.GetVoidValue none
        ((AlgorithmParameters.node .g_nullNameValuePairs "a" (.int 1) true false).wrap
          [("b", Value.string "x", true, false)]) "a" .string (.string "")).self
      = (AlgorithmParameters.node .g_nullNameValuePairs "a" (.int 1) true false).wrap
          [("b", Value.string "x", true, false)] :=
  ⟨((resolve_marks_only_the_answering_node none
      ((AlgorithmParameters.node .g_nullNameValuePairs "a" (.int 1) true false).wrap
        [("b", Value.string "x", true, false)]) .int (.int 0)).2.2.2.1
      [("b", Value.string "x", true, false)] .g_nullNameValuePairs "a" (.int 1) true false
      rfl (by decide) (by decide)).1 (by decide),
   ((resolve_marks_only_the_answering_node none
      ((AlgorithmParameters.node .g_nullNameValuePairs "a" (.int 1) true false).wrap
        [("b", Value.string "x", true, false)]) .string (.string "")).2.2.2.1
      [("b", Value.string "x", true, false)] .g_nullNameValuePairs "a" (.int 1) true false
      rfl (by decide) (by decide)).2 (.ValueTypeMismatch "a" .int .string) (by decide)⟩

/-! ## The accessor table: the base fallback -/

theorem GetValueHelperClass_ctor_root {σ : Type} (T : String)
    (BASE_GetVoidValue BASE_GetVoidValue2 : NameValuePairs Value)
    (searchFirst : Option (NameValuePairs σ)) (pObject : Nat) (object : Value) (name : String)
    (valueType : TypeInfo) (pValue : Value) (delegate : σ) :
    GetValueHelperClass.ctor T T BASE_GetVoidValue searchFirst pObject object name valueType
        pValue delegate
      = GetValueHelperClass.ctor T T BASE_GetVoidValue2 searchFirst pObject object name
          valueType pValue delegate := by
  unfold GetValueHelperClass.ctor GetValueHelperClass.ctorValueNames
  simp

/-- C16: in a class with `T` other than `BASE`, an ordinary query that the delegate, if any,
does not resolve and that `BASE::GetVoidValue` resolves ends, whatever links the table
declares, with `m_found` set, the slot as the base left it and nothing thrown: no link of this
class is consulted or type-checked. In a class that is the root of its chain (`T` is `BASE`)
the result of any query is the same for any two base resolvers: it is never invoked. -/
theorem GetValueHelper_base_fallback {σ : Type} (T BASE : String)
    (BASE_GetVoidValue : NameValuePairs Value) (searchFirst : Option (NameValuePairs σ))
    (entries : List GetValueEntry) (pObject : Nat) (object : Value) (name : String)
    (valueType : TypeInfo) (pValue : Value) (delegate : σ) :
    (name ≠ "ValueNames" → name ≠ "ThisPointer:" ++ T → T ≠ BASE →
      (∀ g, searchFirst = some g →
        (g delegate name valueType pValue).ret = .returns false ∧
        (g delegate name valueType pValue).pValue = pValue) →
      (BASE_GetVoidValue object name valueType pValue).ret = .returns true →
      GetValueHelper T BASE BASE_GetVoidValue searchFirst entries pObject object name valueType
          pValue delegate
        = { m_pObject := pObject,
            object := (BASE_GetVoidValue object name valueType pValue).self,
            m_name := name, m_valueType := valueType,
            m_pValue := (BASE_GetVoidValue object name valueType pValue).pValue,
            m_found := true, m_getValueNames := false,
            searchFirst := (match searchFirst with
              | some g => (g delegate name valueType pValue).self
              | none => delegate),
            thrown := none }) ∧
    (T = BASE → ∀ BASE_GetVoidValue2 : NameValuePairs Value,
      GetValueHelper T BASE BASE_GetVoidValue searchFirst entries pObject object name valueType
          pValue delegate
        = GetValueHelper T BASE BASE_GetVoidValue2 searchFirst entries pObject object name
            valueType pValue delegate) := by
  constructor
  · intro hn hp hTB hdel hbase
    rw [GetValueHelper_found_by_base T BASE BASE_GetVoidValue searchFirst entries pObject
      object name valueType pValue delegate hn hp hTB hdel hbase]
    cases searchFirst <;> rfl
  · intro hTB BASE_GetVoidValue2
    subst hTB
    unfold GetValueHelper
    rw [GetValueHelperClass_ctor_root T BASE_GetVoidValue BASE_GetVoidValue2]

/-- C16, on a class `Derived` that declares `("x", GetMember1)` over a base `Base` that
declares `("x", GetMember0)`: for the object `[5, 6]` the query `x` yields the base's 5, not
the 6 of the link of `Derived`. -/
theorem GetValueHelper_base_fallback_witness :
    (GetValueHelper "Derived" "Base"
        (classGetVoidValue "Base" "Base" sampleBaseGetVoidValue
          [.named "x" .int (sampleGetMember 0)] 0)
        (none : Option (NameValuePairs Unit))
        [.named "x" .int (sampleGetMember 1)]
        0 (.object "Derived" [5, 6]) "x" .int (.int 0) ()).m_pValue = .int 5 :=
  congrArg GetValueHelperClass.m_pValue
    ((GetValueHelper_base_fallback "Derived" "Base"
      (classGetVoidValue "Base" "Base" sampleBaseGetVoidValue
        [.named "x" .int (sampleGetMember 0)] 0)
      (none : Option (NameValuePairs Unit))
      [.named "x" .int (sampleGetMember 1)]
      0 (.object "Derived" [5, 6]) "x" .int (.int 0) ()).1
      (by decide) (by decide) (by decide) (fun _ h => nomatch h) (by decide))

/-! ## The mutator table: the base class and failure -/

/-- C17: (a) when the source does not answer `ThisObject:<T>` and `BASE` is not `T`, the
statement is the declared links run, in order, on what one call of `BASE::AssignFrom` made of
the target and the source as the `ThisObject` query left them: the base runs once and before
every declared mutator. (b) When the whole-object copy was taken, when that query threw, or
when `BASE` is `T`, the result is the same for any two `BASE::AssignFrom`: it does not run.
(c) With a base that throws nothing and one link whose name the source resolves, the target
is the link's mutator applied to the target as the base left it. -/
theorem AssignFrom_base_runs_first {σ : Type} (T BASE : String) (Get : NameValuePairs σ)
    (BASE_AssignFrom : Value → σ → AssignResult σ) (entries : List AssignFromEntry)
    (pObject : Value) (source : σ) :
    ((Get source ("ThisObject:" ++ T) (.object T) pObject).ret = .returns false → BASE ≠ T →
      AssignFromHelper T BASE Get BASE_AssignFrom entries pObject source
        = entries.foldl (AssignFromEntry.apply T Get)
            { m_pObject := (BASE_AssignFrom
                (Get source ("ThisObject:" ++ T) (.object T) pObject).pValue
                (Get source ("ThisObject:" ++ T) (.object T) pObject).self).object,
              m_source := (BASE_AssignFrom
                (Get source ("ThisObject:" ++ T) (.object T) pObject).pValue
                (Get source ("ThisObject:" ++ T) (.object T) pObject).self).source,
              m_done := false,
              thrown := (BASE_AssignFrom
                (Get source ("ThisObject:" ++ T) (.object T) pObject).pValue
                (Get source ("ThisObject:" ++ T) (.object T) pObject).self).thrown }) ∧
    (((Get source ("ThisObject:" ++ T) (.object T) pObject).ret ≠ .returns false ∨ BASE = T) →
      ∀ BASE_AssignFrom2 : Value → σ → AssignResult σ,
        AssignFromHelper T BASE Get BASE_AssignFrom entries pObject source
          = AssignFromHelper T BASE Get BASE_AssignFrom2 entries pObject source) ∧
    (∀ name R pm,
      (Get source ("ThisObject:" ++ T) (.object T) pObject).ret = .returns false → BASE ≠ T →
      (BASE_AssignFrom (Get source ("ThisObject:" ++ T) (.object T) pObject).pValue
        (Get source ("ThisObject:" ++ T) (.object T) pObject).self).thrown = none →
      (Get (BASE_AssignFrom (Get source ("ThisObject:" ++ T) (.object T) pObject).pValue
          (Get source ("ThisObject:" ++ T) (.object T) pObject).self).source
        name R R.defaultValue).ret = .returns true →
      (AssignFromHelper T BASE Get BASE_AssignFrom [.one name R pm] pObject source).m_pObject
        = pm (BASE_AssignFrom (Get source ("ThisObject:" ++ T) (.object T) pObject).pValue
              (Get source ("ThisObject:" ++ T) (.object T) pObject).self).object
            (Get (BASE_AssignFrom (Get source ("ThisObject:" ++ T) (.object T) pObject).pValue
                (Get source ("ThisObject:" ++ T) (.object T) pObject).self).source
              name R R.defaultValue).pValue) := by
  have hctor : (Get source ("ThisObject:" ++ T) (.object T) pObject).ret = .returns false →
      BASE ≠ T →
      AssignFromHelperClass.ctor T BASE Get BASE_AssignFrom pObject source
        = { m_pObject := (BASE_AssignFrom
              (Get source ("ThisObject:" ++ T) (.object T) pObject).pValue
              (Get source ("ThisObject:" ++ T) (.object T) pObject).self).object,
            m_source := (BASE_AssignFrom
              (Get source ("ThisObject:" ++ T) (.object T) pObject).pValue
              (Get source ("ThisObject:" ++ T) (.object T) pObject).self).source,
            m_done := false,
            thrown := (BASE_AssignFrom
              (Get source ("ThisObject:" ++ T) (.object T) pObject).pValue
              (Get source ("ThisObject:" ++ T) (.object T) pObject).self).thrown } := by
    intro hr hBT
    simp [AssignFromHelperClass.ctor, GetThisObject, GetValue, hr, hBT]
  refine ⟨?_, ?_, ?_⟩
  · intro hr hBT
    unfold AssignFromHelper
    rw [hctor hr hBT]
  · intro hor BASE_AssignFrom2
    unfold AssignFromHelper
    have hc : AssignFromHelperClass.ctor T BASE Get BASE_AssignFrom pObject source
        = AssignFromHelperClass.ctor T BASE Get BASE_AssignFrom2 pObject source := by
      unfold AssignFromHelperClass.ctor
      simp only [GetThisObject, GetValue]
      rcases hr : (Get source ("ThisObject:" ++ T) (.object T) pObject).ret with (_ | _) | e
      · rcases hor with h | h
        · exact absurd hr h
        · simp [h]
      · rfl
      · rfl
    rw [hc]
  · intro name R pm hr hBT hthrown hres
    unfold AssignFromHelper
    rw [hctor hr hBT]
    simp [List.foldl, AssignFromEntry.apply, AssignFromHelperClass.named, hthrown,
      Hack_GetValueIntoConstReference, GetValue, hres]

/-- C17, on a class `Obj` with base `Base` whose `AssignFrom` sets both members to 1, a link
`("a", SetMember1)` and the source `MakeParameters("a", 7)`: the target `[0, 0]` ends as
`[1, 7]`, the base's 1 in member 0 and the link's 7 written over the base's 1 in member 1. -/
theorem AssignFrom_base_runs_first_witness :
    (AssignFromHelper "Obj" "Base" (AlgorithmParameters.GetVoidValue none)
        sampleBaseAssignFromOnes [.one "a" .int (sampleSetMember 1)] (.object "Obj" [0, 0])
        (MakeParametersDefault "a" (.int 7))).m_pObject = .object "Obj" [1, 7] :=
  (AssignFrom_base_runs_first "Obj" "Base" (AlgorithmParameters.GetVoidValue none)
    sampleBaseAssignFromOnes [.one "a" .int (sampleSetMember 1)] (.object "Obj" [0, 0])
    (MakeParametersDefault "a" (.int 7))).2.2 "a" .int (sampleSetMember 1)
    (by decide) (by decide) (by decide) (by decide)

/-- Links whose names all resolve, run on a helper that is not done and carries no exception:
the mutators have been applied in declaration order, as `assignInOrder` says. -/
theorem AssignFrom_foldl_assignInOrder {σ : Type} (T : String) (Get : NameValuePairs σ)
    (pre : List AssignFromEntry) (h : AssignFromHelperClass σ) (o : Value) (s : σ)
    (ht : h.thrown = none) (hd : h.m_done = false)
    (hpre : assignInOrder Get pre h.m_pObject h.m_source = some (o, s)) :
    pre.foldl (AssignFromEntry.apply T Get) h
      = { m_pObject := o, m_source := s, m_done := false, thrown := none } := by
  induction pre generalizing h with
  | nil =>
    obtain ⟨obj, src, done, thrown⟩ := h
    simp only at ht hd
    subst ht hd
    simp only [assignInOrder, Option.some.injEq, Prod.mk.injEq] at hpre
    obtain ⟨rfl, rfl⟩ := hpre
    rfl
  | cons x xs ih =>
    obtain ⟨obj, src, done, thrown⟩ := h
    simp only at ht hd
    subst ht hd
    cases x with
    | one name R pm =>
      simp only [assignInOrder] at hpre
      split at hpre
      · rename_i hr
        rw [List.foldl]
        have hstep : AssignFromEntry.apply T Get
            { m_pObject := obj, m_source := src, m_done := false, thrown := none }
            (.one name R pm)
            = { m_pObject := pm obj (Get src name R R.defaultValue).pValue,
                m_source := (Get src name R R.defaultValue).self,
                m_done := false, thrown := none } := by
          simp [AssignFromEntry.apply, AssignFromHelperClass.named,
            Hack_GetValueIntoConstReference, GetValue, hr]
        rw [hstep]
        exact ih _ rfl rfl hpre
      · cases hpre
    | two name1 name2 R S pm =>
      simp only [assignInOrder] at hpre
      split at hpre
      · rename_i hr1
        split at hpre
        · rename_i hr2
          rw [List.foldl]
          have hstep : AssignFromEntry.apply T Get
              { m_pObject := obj, m_source := src, m_done := false, thrown := none }
              (.two name1 name2 R S pm)
              = { m_pObject := pm obj (Get src name1 R R.defaultValue).pValue
                    (Get (Get src name1 R R.defaultValue).self name2 S S.defaultValue).pValue,
                  m_source :=
                    (Get (Get src name1 R R.defaultValue).self name2 S S.defaultValue).self,
                  m_done := false, thrown := none } := by
            simp [AssignFromEntry.apply, AssignFromHelperClass.named2,
              Hack_GetValueIntoConstReference, GetValue, hr1, hr2]
          rw [hstep]
          exact ih _ rfl rfl hpre
        · cases hpre
      · cases hpre

/-- C18: let the source not answer `ThisObject:<T>`, let `h0` be the helper after the
constructor, without an exception, and let every name of the links `pre` resolve, so that
`assignInOrder` yields the target `o` and the source `s` after their mutators ran in
declaration order with the values retrieved. If the next link has a name the source does not
resolve, the statement ends with the missing-required-parameter error for that name and with
the target `o`: the mutators of `pre` have taken effect, that of the failing link and of every
later link has not. For instance the class `Obj` with links `a` and `b` fails on the source
`MakeParameters("a", 7)` and leaves its target modified. -/
theorem AssignFrom_not_atomic {σ : Type} (T BASE : String) (Get : NameValuePairs σ)
    (BASE_AssignFrom : Value → σ → AssignResult σ) (pre post : List AssignFromEntry)
    (pObject : Value) (source : σ) (h0 : AssignFromHelperClass σ) (o : Value) (s : σ)
    (hh : AssignFromHelperClass.ctor T BASE Get BASE_AssignFrom pObject source = h0)
    (hfast : (GetThisObject Get source T pObject).ret = .returns false)
    (hbase : h0.thrown = none)
    (hpre : assignInOrder Get pre h0.m_pObject h0.m_source = some (o, s)) :
    (∀ name R pm, (Get s name R R.defaultValue).ret = .returns false →
      AssignFromHelper T BASE Get BASE_AssignFrom (pre ++ .one name R pm :: post) pObject source
        = { m_pObject := o,
            m_source := (Get s name R R.defaultValue).self,
            m_done := false,
            thrown := some (.InvalidArgument
              (T ++ ": Missing required parameter '" ++ name ++ "'")) }) ∧
    (∀ name1 name2 R S pm, (Get s name1 R R.defaultValue).ret = .returns false →
      AssignFromHelper T BASE Get BASE_AssignFrom (pre ++ .two name1 name2 R S pm :: post)
          pObject source
        = { m_pObject := o,
            m_source := (Get s name1 R R.defaultValue).self,
            m_done := false,
            thrown := some (.InvalidArgument
              (T ++ ": Missing required parameter '" ++ name1 ++ "'")) }) ∧
    (∀ name1 name2 R S pm, (Get s name1 R R.defaultValue).ret = .returns true →
      (Get (Get s name1 R R.defaultValue).self name2 S S.defaultValue).ret = .returns false →
      AssignFromHelper T BASE Get BASE_AssignFrom (pre ++ .two name1 name2 R S pm :: post)
          pObject source
        = { m_pObject := o,
            m_source := (Get (Get s name1 R R.defaultValue).self name2 S S.defaultValue).self,
            m_done := false,
            thrown := some (.InvalidArgument
              (T ++ ": Missing required parameter '" ++ name2 ++ "'")) }) ∧
    (∃ (table : List AssignFromEntry) (src : AlgorithmParameters) (target : Value),
      (AssignFromHelper "Obj" "Obj" (AlgorithmParameters.GetVoidValue none)
          sampleBaseAssignFrom table target src).thrown
        = some (.InvalidArgument "Obj: Missing required parameter 'b'") ∧
      (AssignFromHelper "Obj" "Obj" (AlgorithmParameters.GetVoidValue none)
          sampleBaseAssignFrom table target src).m_pObject ≠ target) := by
  have hd : h0.m_done = false := by
    have := AssignFromHelper_not_done T BASE Get BASE_AssignFrom [] pObject source hfast
    rw [← hh]
    exact this
  have hrun : ∀ rest : List AssignFromEntry,
      AssignFromHelper T BASE Get BASE_AssignFrom (pre ++ rest) pObject source
        = rest.foldl (AssignFromEntry.apply T Get)
            { m_pObject := o, m_source := s, m_done := false, thrown := none } := by
    intro rest
    unfold AssignFromHelper
    rw [List.foldl_append, hh, AssignFrom_foldl_assignInOrder T Get pre h0 o s hbase hd hpre]
  refine ⟨?_, ?_, ?_, ?_⟩
  · intro name R pm hr
    rw [hrun, List.foldl]
    have step : AssignFromEntry.apply T Get
        { m_pObject := o, m_source := s, m_done := false, thrown := none } (.one name R pm)
        = { m_pObject := o,
            m_source := (Get s name R R.defaultValue).self,
            m_done := false,
            thrown := some (.InvalidArgument
              (T ++ ": Missing required parameter '" ++ name ++ "'")) } := by
      simp [AssignFromEntry.apply, AssignFromHelperClass.named,
        Hack_GetValueIntoConstReference, GetValue, hr, missingRequiredParameter]
    rw [step]
    exact AssignFrom_foldl_thrown T Get post _ rfl
  · intro name1 name2 R S pm hr
    rw [hrun, List.foldl]
    have step : AssignFromEntry.apply T Get
        { m_pObject := o, m_source := s, m_done := false, thrown := none }
        (.two name1 name2 R S pm)
        = { m_pObject := o,
            m_source := (Get s name1 R R.defaultValue).self,
            m_done := false,
            thrown := some (.InvalidArgument
              (T ++ ": Missing required parameter '" ++ name1 ++ "'")) } := by
      simp [AssignFromEntry.apply, AssignFromHelperClass.named2,
        Hack_GetValueIntoConstReference, GetValue, hr, missingRequiredParameter]
    rw [step]
    exact AssignFrom_foldl_thrown T Get post _ rfl
  · intro name1 name2 R S pm hr1 hr2
    rw [hrun, List.foldl]
    have step : AssignFromEntry.apply T Get
        { m_pObject := o, m_source := s, m_done := false, thrown := none }
        (.two name1 name2 R S pm)
        = { m_pObject := o,
            m_source := (Get (Get s name1 R R.defaultValue).self name2 S S.defaultValue).self,
            m_done := false,
            thrown := some (.InvalidArgument
              (T ++ ": Missing required parameter '" ++ name2 ++ "'")) } := by
      simp [AssignFromEntry.apply, AssignFromHelperClass.named2,
        Hack_GetValueIntoConstReference, GetValue, hr1, hr2, missingRequiredParameter]
    rw [step]
    exact AssignFrom_foldl_thrown T Get post _ rfl
  · exact ⟨[.one "a" .int (sampleSetMember 0), .one "b" .int (sampleSetMember 1)],
      MakeParametersDefault "a" (.int 7), .object "Obj" [0, 0], by decide, by decide⟩

/-- C18, with the source `MakeParameters("a", 7)("b", 9)` and a class `Obj` that declares
`("a", SetMember0)("b", SetMember1)("c", SetMember0)("a", SetMember1)`: the statement fails
on `c` with the target `[7, 9]`, both earlier mutators applied, and the last link not run. -/
theorem AssignFrom_not_atomic_witness :
    AssignFromHelper "Obj" "Obj" (AlgorithmParameters.GetVoidValue none) sampleBaseAssignFrom
        ([.one "a" .int (sampleSetMember 0), .one "b" .int (sampleSetMember 1)]
          ++ .one "c" .int (sampleSetMember 0) :: [.one "a" .int (sampleSetMember 1)])
        (.object "Obj" [0, 0]) (chain "a" (.int 7) true [⟨"b", .int 9, none⟩])
      = { m_pObject := .object "Obj" [7, 9],
          m_source := .node (.node .g_nullNameValuePairs "a" (.int 7) true true)
            "b" (.int 9) true true,
          m_done := false,
          thrown := some (.InvalidArgument "Obj: Missing required parameter 'c'") } :=
  (AssignFrom_not_atomic "Obj" "Obj" (AlgorithmParameters.GetVoidValue none)
    sampleBaseAssignFrom
    [.one "a" .int (sampleSetMember 0), .one "b" .int (sampleSetMember 1)]
    [.one "a" .int (sampleSetMember 1)]
    (.object "Obj" [0, 0]) (chain "a" (.int 7) true [⟨"b", .int 9, none⟩])
    { m_pObject := .object "Obj" [0, 0],
      m_source := chain "a" (.int 7) true [⟨"b", .int 9, none⟩],
      m_done := false, thrown := none }
    (.object "Obj" [7, 9])
    (.node (.node .g_nullNameValuePairs "a" (.int 7) true true) "b" (.int 9) true true)
    (by decide) (by decide) rfl (by decide)).1 "c" .int (sampleSetMember 0) (by decide)

/-! ## The parameter chain: copies, shadowing and teardown -/

theorem AlgorithmParameters_copy_snd (c : AlgorithmParameters) : c.copy.2 = c.allUsed := by
  induction c with
  | g_nullNameValuePairs => rfl
  | node p n v t u ih => simp [AlgorithmParameters.copy, AlgorithmParameters.allUsed, ih]

theorem destructor_allUsed (avail uncaught : Bool) (c : AlgorithmParameters) :
    AlgorithmParameters.destructor avail uncaught c.allUsed = none := by
  induction c with
  | g_nullNameValuePairs => rfl
  | node p n v t u ih =>
    simp only [AlgorithmParameters.allUsed, AlgorithmParameters.destructor, ih]
    cases avail <;> cases uncaught <;> cases t <;> simp [AlgorithmParametersBase.destructor]

/-- C19: the copy constructor yields a copy equal to the source as it was, member for member
and ancestor for ancestor, the used flags included, and leaves the source with `m_used = true`
in every node of its chain; so does every `operator()` call to the node it is called on, whose
copy becomes `m_parent` of the new node. Hence the teardown of a copied-from chain lets
nothing escape, in either build and whether or not an exception is unwinding, and the teardown
of the copy is that of the source as it was: what the source would have raised, the copy
raises. -/
theorem copy_hands_over_the_obligation (c : AlgorithmParameters) (name : String)
    (value : Value) (f : Bool) (CRYPTOPP_UNCAUGHT_EXCEPTION_AVAILABLE uncaught_exception : Bool) :
    c.copy.1 = c ∧
    c.copy.2 = c.allUsed ∧
    (c.call name value).2 = c.allUsed ∧
    (c.callFlag name value f).2 = c.allUsed ∧
    (∃ t, (c.call name value).1 = .node c name value t false) ∧
    (c.callFlag name value f).1 = .node c name value f false ∧
    AlgorithmParameters.destructor CRYPTOPP_UNCAUGHT_EXCEPTION_AVAILABLE uncaught_exception
      c.copy.2 = none ∧
    AlgorithmParameters.destructor CRYPTOPP_UNCAUGHT_EXCEPTION_AVAILABLE uncaught_exception
      c.copy.1
      = AlgorithmParameters.destructor CRYPTOPP_UNCAUGHT_EXCEPTION_AVAILABLE uncaught_exception
          c := by
  refine ⟨AlgorithmParameters_copy_fst c, AlgorithmParameters_copy_snd c, ?_, ?_, ?_, ?_, ?_, ?_⟩
  · simp [AlgorithmParameters.call, AlgorithmParameters.ctor, AlgorithmParameters_copy_snd]
  · simp [AlgorithmParameters.callFlag, AlgorithmParameters.ctor, AlgorithmParameters_copy_snd]
  · exact ⟨c.m_throwIfNotUsed, by
      simp [AlgorithmParameters.call, AlgorithmParameters.ctor, AlgorithmParameters_copy_fst]⟩
  · simp [AlgorithmParameters.callFlag, AlgorithmParameters.ctor, AlgorithmParameters_copy_fst]
  · rw [AlgorithmParameters_copy_snd]
    exact destructor_allUsed _ _ c
  · rw [AlgorithmParameters_copy_fst]

/-- A query changes the node `d` levels down in nothing, or it is a query for that node's
name, no node above has that name, and the node's `m_used` became true. -/
theorem GetVoidValue_nodeAt (hook : Option IntToIntegerHook) (q : String)
    (valueType : TypeInfo) (pValue : Value) (c : AlgorithmParameters) (d : Nat) :
    (AlgorithmParameters.GetVoidValue hook c q valueType pValue).self.nodeAt d = c.nodeAt d ∨
    ((∃ v t u, c.nodeAt d = some (q, v, t, u) ∧
        (AlgorithmParameters.GetVoidValue hook c q valueType pValue).self.nodeAt d
          = some (q, v, t, true)) ∧
      ∀ i, i < d → ∀ x, c.nodeAt i = some x → x.1 ≠ q) := by
  by_cases hq : q = "ValueNames"
  · subst hq
    rw [GetVoidValue_ValueNames_self]
    exact Or.inl rfl
  induction c generalizing d with
  | g_nullNameValuePairs => exact Or.inl rfl
  | node p n v t u ih =>
    by_cases hne : q = n
    · subst hne
      rw [GetVoidValue_node_self_eq hook p q v t u valueType pValue hq]
      rcases hA : AssignValue hook v q valueType pValue with ⟨_ | e, pv1⟩
      · cases d with
        | zero =>
          refine Or.inr ⟨⟨v, t, u, rfl, rfl⟩, ?_⟩
          intro i hi
          exact absurd hi (Nat.not_lt_zero i)
        | succ d => exact Or.inl rfl
      · exact Or.inl rfl
    · rw [GetVoidValue_node_other hook p n v t u q valueType pValue hq hne]
      cases d with
      | zero => exact Or.inl rfl
      | succ d =>
        rcases ih d with h | ⟨h1, h2⟩
        · exact Or.inl h
        · refine Or.inr ⟨h1, ?_⟩
          intro i hi x hx
          cases i with
          | zero =>
            simp only [AlgorithmParameters.nodeAt, Option.some.injEq] at hx
            subst hx
            exact fun h => hne h.symm
          | succ i => exact h2 i (Nat.lt_of_succ_lt_succ hi) x hx

/-- One query keeps a node named `n` at level `i` and leaves a node named `n` further down,
at level `d`, exactly as it was. -/
theorem GetVoidValue_keeps_shadowed (hook : Option IntToIntegerHook) (q : String)
    (valueType : TypeInfo) (pValue : Value) (c : AlgorithmParameters) (i d : Nat)
    (n : String) (v1 : Value) (t1 u1 : Bool) (hi : i < d)
    (hshadowing : ∃ v t u, c.nodeAt i = some (n, v, t, u))
    (hshadowed : c.nodeAt d = some (n, v1, t1, u1)) :
    (∃ v t u, (AlgorithmParameters.GetVoidValue hook c q valueType pValue).self.nodeAt i
        = some (n, v, t, u)) ∧
    (AlgorithmParameters.GetVoidValue hook c q valueType pValue).self.nodeAt d
      = some (n, v1, t1, u1) := by
  obtain ⟨v, t, u, hvi⟩ := hshadowing
  constructor
  · rcases GetVoidValue_nodeAt hook q valueType pValue c i with h | ⟨⟨v2, t2, u2, h1, h2⟩, _⟩
    · exact ⟨v, t, u, by rw [h, hvi]⟩
    · rw [hvi] at h1
      simp only [Option.some.injEq, Prod.mk.injEq] at h1
      obtain ⟨rfl, rfl, rfl, rfl⟩ := h1
      exact ⟨v, t, true, h2⟩
  · rcases GetVoidValue_nodeAt hook q valueType pValue c d with h | ⟨⟨v2, t2, u2, h1, _⟩, h3⟩
    · rw [h, hshadowed]
    · rw [hshadowed] at h1
      simp only [Option.some.injEq, Prod.mk.injEq] at h1
      obtain ⟨rfl, rfl, rfl, rfl⟩ := h1
      exact absurd rfl (h3 i hi _ hvi)

theorem resolveAll_keeps_shadowed (hook : Option IntToIntegerHook)
    (queries : List (String × TypeInfo × Value)) (c : AlgorithmParameters) (i d : Nat)
    (n : String) (v1 : Value) (t1 u1 : Bool) (hi : i < d)
    (hshadowing : ∃ v t u, c.nodeAt i = some (n, v, t, u))
    (hshadowed : c.nodeAt d = some (n, v1, t1, u1)) :
    (c.resolveAll hook queries).nodeAt d = some (n, v1, t1, u1) := by
  induction queries generalizing c with
  | nil => exact hshadowed
  | cons q qs ih =>
    have hk := GetVoidValue_keeps_shadowed hook q.1 q.2.1 q.2.2 c i d n v1 t1 u1 hi
      hshadowing hshadowed
    exact ih _ hk.1 hk.2

theorem AlgorithmParametersBase_destructor_unwinding (avail : Bool) (n : String)
    (t u : Bool) : AlgorithmParametersBase.destructor avail true n t u = none := by
  cases avail <;> cases t <;> cases u <;> simp [AlgorithmParametersBase.destructor]

theorem destructor_is_ParameterNotUsed (avail uncaught : Bool) (c : AlgorithmParameters)
    (e : Exception) (h : AlgorithmParameters.destructor avail uncaught c = some e) :
    ∃ what, e = .ParameterNotUsed what := by
  induction c generalizing e with
  | g_nullNameValuePairs => cases h
  | node p n v t u ih =>
    simp only [AlgorithmParameters.destructor] at h
    cases hp : AlgorithmParameters.destructor avail uncaught p with
    | none =>
      rw [hp] at h
      cases avail <;> cases uncaught <;> cases t <;> cases u <;>
        simp [AlgorithmParametersBase.destructor] at h
      exact ⟨_, h.symm⟩
    | some e2 =>
      rw [hp] at h
      simp only [AlgorithmParametersBase_destructor_unwinding, Option.some.injEq] at h
      subst h
      exact ih e2 hp

/-- An exception from the teardown of `m_parent` goes on through the node around it. -/
theorem destructor_propagates (p : AlgorithmParameters) (n : String) (v : Value) (t u : Bool)
    (e : Exception) (h : AlgorithmParameters.destructor true false p = some e) :
    AlgorithmParameters.destructor true false (.node p n v t u) = some e := by
  simp only [AlgorithmParameters.destructor, h]
  cases t <;> cases u <;> simp [AlgorithmParametersBase.destructor]

theorem destructor_raises_of_unused (n : String) (v : Value) (c : AlgorithmParameters)
    (d : Nat) (h : c.nodeAt d = some (n, v, true, false)) :
    ∃ e, AlgorithmParameters.destructor true false c = some e := by
  induction c generalizing d with
  | g_nullNameValuePairs => cases h
  | node p m w t u ih =>
    cases d with
    | zero =>
      simp only [AlgorithmParameters.nodeAt, Option.some.injEq, Prod.mk.injEq] at h
      obtain ⟨rfl, rfl, rfl, rfl⟩ := h
      cases hp : AlgorithmParameters.destructor true false p with
      | none =>
        exact ⟨.ParameterNotUsed ("AlgorithmParametersBase: parameter \"" ++ m ++ "\" not used"),
          by simp [AlgorithmParameters.destructor, hp, AlgorithmParametersBase.destructor]⟩
      | some e => exact ⟨e, destructor_propagates p _ _ _ _ e hp⟩
    | succ d =>
      obtain ⟨e, he⟩ := ih d h
      exact ⟨e, destructor_propagates p _ _ _ _ e he⟩

theorem destructor_names_unused (n : String) (v : Value) (c : AlgorithmParameters)
    (d : Nat) (h : c.nodeAt d = some (n, v, true, false))
    (hbelow : AlgorithmParameters.destructor true false (c.parentAt (d + 1)) = none) :
    AlgorithmParameters.destructor true false c
      = some (.ParameterNotUsed ("AlgorithmParametersBase: parameter \"" ++ n ++ "\" not used"))
    := by
  induction c generalizing d with
  | g_nullNameValuePairs => cases h
  | node p m w t u ih =>
    cases d with
    | zero =>
      simp only [AlgorithmParameters.nodeAt, Option.some.injEq, Prod.mk.injEq] at h
      obtain ⟨rfl, rfl, rfl, rfl⟩ := h
      have hp : AlgorithmParameters.destructor true false p = none := by
        simpa [AlgorithmParameters.parentAt] using hbelow
      simp [AlgorithmParameters.destructor, hp, AlgorithmParametersBase.destructor]
    | succ d =>
      have hb : AlgorithmParameters.destructor true false (p.parentAt (d + 1)) = none := by
        simpa [AlgorithmParameters.parentAt] using hbelow
      exact destructor_propagates p _ _ _ _ _ (ih d h hb)

theorem destructor_without_macro (uncaught : Bool) (c : AlgorithmParameters) :
    AlgorithmParameters.destructor false uncaught c = none := by
  induction c with
  | g_nullNameValuePairs => rfl
  | node p n v t u ih =>
    simp only [AlgorithmParameters.destructor, ih]
    cases t <;> cases u <;> simp [AlgorithmParametersBase.destructor]

/-- C20, as the source has it: in a chain with a node named `n` at level `i` and another node
named `n` below it, at level `d`, no sequence of `GetVoidValue` calls through the outermost
node changes the lower node: its `m_used` stays what it was. Hence, when that node has
`m_throwIfNotUsed` and is unused, the teardown of the chain after any such calls, in a build
with `CRYPTOPP_UNCAUGHT_EXCEPTION_AVAILABLE` and with nothing unwinding, throws
`ParameterNotUsed`; it is the exception naming `n` whenever the teardown of the nodes below
that node throws nothing, which would otherwise be unwinding when its turn comes. In a build
without the macro the teardown lets nothing escape. -/
theorem shadowed_node_stays_unused (hook : Option IntToIntegerHook) (c : AlgorithmParameters)
    (i d : Nat) (n : String) (v1 : Value) (t1 u1 : Bool)
    (queries : List (String × TypeInfo × Value)) (hi : i < d)
    (hshadowing : ∃ v t u, c.nodeAt i = some (n, v, t, u))
    (hshadowed : c.nodeAt d = some (n, v1, t1, u1)) :
    (c.resolveAll hook queries).nodeAt d = some (n, v1, t1, u1) ∧
    (t1 = true → u1 = false →
      (∃ what, AlgorithmParameters.destructor true false (c.resolveAll hook queries)
        = some (.ParameterNotUsed what)) ∧
      (AlgorithmParameters.destructor true false
          ((c.resolveAll hook queries).parentAt (d + 1)) = none →
        AlgorithmParameters.destructor true false (c.resolveAll hook queries)
          = some (.ParameterNotUsed
              ("AlgorithmParametersBase: parameter \"" ++ n ++ "\" not used")))) ∧
    (∀ uncaught_exception : Bool,
      AlgorithmParameters.destructor false uncaught_exception (c.resolveAll hook queries)
        = none) := by
  have hkeep := resolveAll_keeps_shadowed hook queries c i d n v1 t1 u1 hi hshadowing hshadowed
  refine ⟨hkeep, ?_, ?_⟩
  · intro ht hu
    subst ht hu
    constructor
    · obtain ⟨e, he⟩ := destructor_raises_of_unused n v1 _ d hkeep
      obtain ⟨what, hw⟩ := destructor_is_ParameterNotUsed true false _ e he
      exact ⟨what, by rw [he, hw]⟩
    · intro hbelow
      exact destructor_names_unused n v1 _ d hkeep hbelow
  · intro uncaught_exception
    exact destructor_without_macro uncaught_exception _

/-- C20, as stated, fails in a build without `CRYPTOPP_UNCAUGHT_EXCEPTION_AVAILABLE`: in
`MakeParameters("a", 1)("a", 2)` the shadowed node has `m_throwIfNotUsed` and is unused, the
receiver queries `a`, nothing is unwinding, and the teardown lets nothing escape. -/
theorem shadowed_teardown_silent_without_uncaught_exception :
    (chain "a" (.int 1) true [⟨"a", .int 2, none⟩]).nodeAt 1 = some ("a", .int 1, true, false) ∧
    AlgorithmParameters.destructor false false
      ((chain "a" (.int 1) true [⟨"a", .int 2, none⟩]).resolveAll none [("a", .int, .int 0)])
      = none := by
  decide

/-- C20, on `MakeParameters("a", 1)("a", 2)` in a build with the macro: after the receiver
asked for `a`, for the names and for `b`, the teardown throws `ParameterNotUsed` for `a`. -/
theorem shadowed_node_stays_unused_witness :
    AlgorithmParameters.destructor true false
      ((chain "a" (.int 1) true [⟨"a", .int 2, none⟩]).resolveAll none
        [("a", .int, .int 0), ("ValueNames", .string, .string ""), ("b", .int, .int 0)])
      = some (.ParameterNotUsed "AlgorithmParametersBase: parameter \"a\" not used") :=
  ((shadowed_node_stays_unused none (chain "a" (.int 1) true [⟨"a", .int 2, none⟩]) 0 1 "a"
    (.int 1) true false
    [("a", .int, .int 0), ("ValueNames", .string, .string ""), ("b", .int, .int 0)]
    (by decide) ⟨.int 2, true, false, by decide⟩ (by decide)).2.1 rfl rfl).2 (by decide)

end CryptoPP
